import Mathlib

/-!
Verification development for the table-rendering and pagination module
of python-fmclient (fmclient/common/utils.py).

The Python source is shallowly embedded: objects are association lists of
string attributes, mutation is explicit state passing, the interactive
pager is a fuelled state machine threading an input stream and an output
log, and the external collaborators (prettytable rendering, textwrap.fill,
the wrapping-formatter module, terminal geometry, the local timezone) are
parameters of an `Env` record or are modelled from the specification where
their code is outside the repository snapshot.
-/

namespace FmUtils

/-! ### Python objects: attribute maps with explicit mutation -/

/-- A domain object: an association list from attribute names to string
values.  `getattr(o, f, d)` and `setattr(o, f, v)` become `getattrD` and
`setattr` below; Python mutation is modelled by returning the updated
object. -/
abbrev Obj := List (String × String)

/-- Embeds Python `getattr(o, f, dflt)`: a missing attribute resolves to
the default, never raising. -/
def getattrD (o : Obj) (f : String) (dflt : String) : String :=
  match o.lookup f with
  | some v => v
  | none => dflt

/-- Embeds Python `setattr(o, f, v)`: replaces the attribute if present,
otherwise adds it. -/
def setattr : Obj → String → String → Obj
  | [], f, v => [(f, v)]
  | (g, w) :: rest, f, v =>
    if g = f then (f, v) :: rest else (g, w) :: setattr rest f v

/-! ### Height calculator: `str_height` and `row_height`

Source: utils.py lines 311-323. -/

/-- Splits a character list at newline characters, embedding the Python
expression `str(text).split("\n")` (split with an explicit separator: a
trailing newline yields a trailing empty piece). -/
def splitNl : List Char → List (List Char)
  | [] => [[]]
  | c :: cs =>
    if c = '\n' then [] :: splitNl cs
    else
      match splitNl cs with
      | [] => [[c]]
      | line :: rest => (c :: line) :: rest

/-- Embeds `str_height(text)`: `None` and the empty string are falsy in
Python and give height 1; otherwise the number of newline-separated
pieces. -/
def str_height (t : Option String) : Nat :=
  match t with
  | none => 1
  | some s => if s.data = [] then 1 else (splitNl s.data).length

/-- Embeds `row_height(texts)`: 1 for an empty collection, else the
maximum cell height.  Python computes `max(...)` over a non-empty
generator; since every height is at least 1, folding `max` from 0 gives
the same value. -/
def row_height (texts : List String) : Nat :=
  if texts = [] then 1
  else (texts.map (fun t => str_height (some t))).foldl Nat.max 0

/-! ### Timestamp normalization: `parse_date`

Source: utils.py lines 254-282.  The Python function substitutes every
occurrence of the regex

  (\d-4--\d-2--\d-2-[T ])?\d-2-:\d-2-:\d-2-(\.\d-6-)?Z?

(braces written as dashes here) by a converted timestamp: the matched text
is validated against five strptime formats, interpreted as UTC, converted
to the local timezone, and re-rendered with the same format.  The local
timezone is modelled as a fixed UTC offset in minutes (`off`), and the
Python 2.7 restriction that `strftime` requires year >= 1900 is kept. -/

/-- Gregorian leap-year test, as in Python's `calendar`/`datetime`. -/
def isLeap (y : Nat) : Bool :=
  (y % 4 = 0 && y % 100 ≠ 0) || y % 400 = 0

/-- Days in a month of the proleptic Gregorian calendar. -/
def daysInMonth (y mo : Nat) : Nat :=
  if mo = 2 then (if isLeap y then 29 else 28)
  else if mo = 4 ∨ mo = 6 ∨ mo = 9 ∨ mo = 11 then 30
  else 31

/-- A calendar date (year, month, day). -/
structure Ymd where
  y : Nat
  mo : Nat
  d : Nat
deriving DecidableEq

/-- The day after a date; `none` past `datetime.max` (year 9999). -/
def nextDay (p : Ymd) : Option Ymd :=
  if p.d < daysInMonth p.y p.mo then some ⟨p.y, p.mo, p.d + 1⟩
  else if p.mo < 12 then some ⟨p.y, p.mo + 1, 1⟩
  else if p.y < 9999 then some ⟨p.y + 1, 1, 1⟩
  else none

/-- The day before a date; `none` before `datetime.min` (year 1). -/
def prevDay (p : Ymd) : Option Ymd :=
  if 1 < p.d then some ⟨p.y, p.mo, p.d - 1⟩
  else if 1 < p.mo then some ⟨p.y, p.mo - 1, daysInMonth p.y (p.mo - 1)⟩
  else if 1 < p.y then some ⟨p.y - 1, 12, 31⟩
  else none

/-- Iterates a partial day-step function. -/
def iterDay (f : Ymd → Option Ymd) : Nat → Ymd → Option Ymd
  | 0, p => some p
  | k + 1, p =>
    match f p with
    | none => none
    | some q => iterDay f k q

/-- Shifts a date by a signed number of days, failing outside the
`datetime` range (years 1 to 9999) as `astimezone` overflow does. -/
def addDays (p : Ymd) (k : Int) : Option Ymd :=
  if 0 ≤ k then iterDay nextDay k.toNat p else iterDay prevDay (-k).toNat p

/-- Shifts a wall-clock date and hour/minute by a UTC offset in minutes,
carrying across day boundaries.  This embeds
`parsed.astimezone(dateutil.tz.tzlocal())` with the local zone modelled
as a fixed offset; seconds and microseconds are unaffected by a
whole-minute offset. -/
def shiftMinutes (p : Ymd) (h mi : Nat) (off : Int) : Option (Ymd × Nat × Nat) :=
  let tot : Int := (h : Int) * 60 + (mi : Int) + off
  let q : Int := tot / 1440
  let r : Int := tot % 1440
  match addDays p q with
  | none => none
  | some p' => some (p', (r / 60).toNat, (r % 60).toNat)

/-- One regex match of the timestamp pattern: the optional date prefix
(with its separator, `T` or a space), the mandatory `HH:MM:SS`, the
optional 6-digit fraction, and the optional trailing `Z`. -/
structure TStamp where
  date : Option (Ymd × Bool)
  h : Nat
  mi : Nat
  sec : Nat
  frac : Option Nat
  z : Bool
deriving DecidableEq

/-- Renders a number as exactly `k` decimal digits (the value of a
`k`-digit source group is below `10 ^ k`, so this is left-padding with
zeros, as `strftime` does for `%m`, `%d`, `%H`, `%M`, `%S`, `%f`). -/
def padDigits : Nat → Nat → List Char
  | 0, _ => []
  | k + 1, n => Char.ofNat (48 + n / 10 ^ k % 10) :: padDigits k (n % 10 ^ k)

/-- Renders the optional 6-digit fraction of a match. -/
def renderFrac : Option Nat → List Char
  | some f => '.' :: padDigits 6 f
  | none => []

/-- Renders the optional date prefix of a match. -/
def renderDate : Option (Ymd × Bool) → List Char
  | none => []
  | some (p, sepT) =>
    padDigits 4 p.y ++ '-' :: padDigits 2 p.mo ++ '-' :: padDigits 2 p.d
      ++ [if sepT then 'T' else ' ']

/-- Renders a whole match back to text (also the shape `strftime` emits
for the format that accepted it). -/
def renderStamp (m : TStamp) : List Char :=
  renderDate m.date ++ padDigits 2 m.h ++ ':' :: padDigits 2 m.mi ++ ':' :: padDigits 2 m.sec
    ++ renderFrac m.frac ++ (if m.z then ['Z'] else [])

/-- Consumes exactly `k` decimal digits, returning their value. -/
def takeDigits : Nat → List Char → Option (Nat × List Char)
  | 0, l => some (0, l)
  | _ + 1, [] => none
  | k + 1, c :: l =>
    if c.isDigit then
      match takeDigits k l with
      | none => none
      | some (n, rest) => some ((c.toNat - 48) * 10 ^ k + n, rest)
    else none

/-- Consumes one expected character. -/
def takeChar (c : Char) : List Char → Option (List Char)
  | [] => none
  | d :: l => if d = c then some l else none

/-- Matches the optional date prefix `\d-4--\d-2--\d-2-[T ]`. -/
def matchDate (l : List Char) : Option ((Ymd × Bool) × List Char) :=
  match takeDigits 4 l with
  | none => none
  | some (y, l1) =>
    match takeChar '-' l1 with
    | none => none
    | some l2 =>
      match takeDigits 2 l2 with
      | none => none
      | some (mo, l3) =>
        match takeChar '-' l3 with
        | none => none
        | some l4 =>
          match takeDigits 2 l4 with
          | none => none
          | some (d, l5) =>
            match l5 with
            | [] => none
            | c :: l6 =>
              if c = 'T' then some ((⟨y, mo, d⟩, true), l6)
              else if c = ' ' then some ((⟨y, mo, d⟩, false), l6)
              else none

/-- Matches the mandatory `\d-2-:\d-2-:\d-2-`. -/
def matchHMS (l : List Char) : Option ((Nat × Nat × Nat) × List Char) :=
  match takeDigits 2 l with
  | none => none
  | some (h, l1) =>
    match takeChar ':' l1 with
    | none => none
    | some l2 =>
      match takeDigits 2 l2 with
      | none => none
      | some (mi, l3) =>
        match takeChar ':' l3 with
        | none => none
        | some l4 =>
          match takeDigits 2 l4 with
          | none => none
          | some (sec, l5) => some ((h, mi, sec), l5)

/-- Greedily matches the optional fraction `(\.\d-6-)?`. -/
def matchFrac (l : List Char) : Option Nat × List Char :=
  match l with
  | '.' :: l1 =>
    (match takeDigits 6 l1 with
     | some (n, l2) => (some n, l2)
     | none => (none, l))
  | _ => (none, l)

/-- Greedily matches the optional trailing `Z`. -/
def matchZTail (l : List Char) : Bool × List Char :=
  match l with
  | 'Z' :: l1 => (true, l1)
  | _ => (false, l)

/-- Attempts the whole pattern at the head of `l`.  When the date prefix
matches but no time follows it, the regex engine would retry without the
optional date group at the same position, but that retry always fails:
the date prefix starts with four digits, so the third character cannot be
the `:` the time alternative needs.  The embedding therefore fails
outright in that case. -/
def matchStamp (l : List Char) : Option (TStamp × List Char) :=
  match matchDate l with
  | some (dm, l1) =>
    (match matchHMS l1 with
     | some ((h, mi, sec), l2) =>
       let fr := matchFrac l2
       let zt := matchZTail fr.2
       some (⟨some dm, h, mi, sec, fr.1, zt.1⟩, zt.2)
     | none => none)
  | none =>
    match matchHMS l with
    | some ((h, mi, sec), l2) =>
      let fr := matchFrac l2
      let zt := matchZTail fr.2
      some (⟨none, h, mi, sec, fr.1, zt.1⟩, zt.2)
    | none => none

/-- The range checks `datetime.strptime` performs on a matched date-time
(months 1-12, days within the month, hour below 24, minute and second
below 60; `datetime` accepts years 1-9999, and the regex guarantees at
most 4 year digits). -/
def validDT (p : Ymd) (h mi sec : Nat) : Bool :=
  1 ≤ p.y && 1 ≤ p.mo && p.mo ≤ 12 && 1 ≤ p.d && p.d ≤ daysInMonth p.y p.mo
    && h ≤ 23 && mi ≤ 59 && sec ≤ 59

/-- The suffix the source appends to the matched text before re-parsing
it as UTC: `datestring += "+0000"`. -/
def utcSuffix : List Char := ['+', '0', '0', '0', '0']

/-- Embeds the `convert_date` closure of `parse_date` for one match.
A match with no date prefix fails all five `strptime` formats and is
returned unchanged; so does a fraction together with `Z`, a space
separator together with `Z`, or out-of-range components (the range
checks happen inside `strptime`, before any mutation).  Otherwise
exactly one format accepts the text.  The source then mutates the
matched text (`datestring += "+0000"`) before calling `parser.parse`,
`astimezone` and `strftime`; if one of those later calls raises
(`astimezone` overflow past the `datetime` range, or the Python 2.7
`strftime` requirement of year at least 1900), the exception is
swallowed, every remaining format's `strptime` rejects the now-suffixed
text, and the final `return datestring` yields the match WITH the
`+0000` suffix.  On success the timestamp — interpreted as UTC and
shifted to the local offset — is re-rendered with the same format. -/
def convert_date (off : Int) (m : TStamp) : List Char :=
  match m.date with
  | none => renderStamp m
  | some (p, sepT) =>
    if m.frac.isSome && m.z then renderStamp m
    else if m.z && !sepT then renderStamp m
    else if !(validDT p m.h m.mi m.sec) then renderStamp m
    else
      match shiftMinutes p m.h m.mi off with
      | none => renderStamp m ++ utcSuffix
      | some (p', h', mi') =>
        if p'.y < 1900 then renderStamp m ++ utcSuffix
        else renderStamp { m with date := some (p', sepT), h := h', mi := mi' }

/-- Holds when conversion can never reach the mutated-text error path:
either every `strptime` rejects the match (no date prefix, an impossible
shape, or out-of-range components), or the timestamp is convertible with
a year of at least 1900 so that — at zero offset — `astimezone` cannot
overflow and the Python 2.7 `strftime` restriction is met. -/
def convertsCleanly (m : TStamp) : Bool :=
  match m.date with
  | none => true
  | some (p, sepT) =>
    if m.frac.isSome && m.z then true
    else if m.z && !sepT then true
    else if !(validDT p m.h m.mi m.sec) then true
    else decide (1900 ≤ p.y)

/-- Embeds `re.sub` for the timestamp pattern: scan left to right, replace
each non-overlapping match, advance one character where no match starts.
The fuel argument only bounds recursion; every match consumes at least
eight characters, so fuel equal to the input length is always enough. -/
def subStamps (g : TStamp → List Char) : Nat → List Char → List Char
  | 0, l => l
  | _ + 1, [] => []
  | fuel + 1, c :: cs =>
    match matchStamp (c :: cs) with
    | some (m, rest) => g m ++ subStamps g fuel rest
    | none => c :: subStamps g fuel cs

/-- Embeds `parse_date(string_data)` with the local timezone given as a
fixed UTC offset `off` in minutes. -/
def parse_date (off : Int) (s : String) : String :=
  ⟨subStamps (convert_date off) s.data.length s.data⟩

/-- Scans like `subStamps` and checks that every match it would replace
satisfies the predicate `p`. -/
def stampsOK (p : TStamp → Bool) : Nat → List Char → Bool
  | 0, _ => true
  | _ + 1, [] => true
  | fuel + 1, c :: cs =>
    match matchStamp (c :: cs) with
    | some (m, rest) => p m && stampsOK p fuel rest
    | none => stampsOK p fuel cs

/-! ### Formatters and the wrapping-formatter collaborator

The `wrapping_formatters` module is part of the client package but not of
this repository snapshot, so it is modelled from the specification
(sections 3, 4.3 and 6 of the spec). -/

/-- Modelled from the spec: a field formatter.  A formatter maps an object
to a display string; a wrapping-capable formatter additionally carries a
per-formatter no-wrap flag (toggled by `set_no_wrap_on_formatters`), an
unwrapped field value used as a sort key
(`get_unwrapped_field_value`), and a target column character width used
for header word-wrap
(`get_actual_column_char_len(get_calculated_desired_width())`).
`applyF` takes the effective no-wrap mode as its first argument. -/
structure Fmt where
  isWrapping : Bool
  noWrap : Bool
  applyF : Bool → Obj → String
  unwrappedVal : Obj → String
  headerWidth : Nat

/-- Modelled from the spec: invoking a formatter on an object.  A
wrapping-capable formatter wraps unless the global no-wrap override or
its own no-wrap flag is set; a plain formatter ignores both. -/
def callFmt (globalNoWrap : Bool) (φ : Fmt) (o : Obj) : String :=
  if φ.isWrapping then φ.applyF (globalNoWrap || φ.noWrap) o else φ.applyF false o

/-- Modelled from the spec:
`wrapping_formatters.set_no_wrap_on_formatters(True, formatters)` forces
every wrapping-capable formatter into no-wrap mode and returns the
original per-formatter settings so they can be restored. -/
def set_no_wrap_on_formatters (b : Bool) (fmts : List (String × Fmt)) :
    List (String × Bool) × List (String × Fmt) :=
  (fmts.map (fun p => (p.1, p.2.noWrap)),
   fmts.map (fun p => (p.1, if p.2.isWrapping then { p.2 with noWrap := b } else p.2)))

/-- Modelled from the spec:
`wrapping_formatters.unset_no_wrap_on_formatters(orig)` restores the
recorded per-formatter wrap settings. -/
def unset_no_wrap_on_formatters (orig : List (String × Bool))
    (fmts : List (String × Fmt)) : List (String × Fmt) :=
  List.zipWith (fun (p : String × Bool) (q : String × Fmt) =>
    (q.1, { q.2 with noWrap := p.2 })) orig fmts

/-! ### Row builder: `_build_row_from_object`

Source: utils.py lines 555-570. -/

/-- The external environment of one run: terminal geometry, the global
no-wrap override (`wrapping_formatters.is_nowrap_set`), the measured
width of rendered text (`wrapping_formatters.get_width`), the prettytable
renderer (`WRPrettyTable.get_string` on given header labels and rows),
`textwrap.fill`, and the local timezone offset in minutes. -/
structure Env where
  terminal_width : Int
  terminal_height : Int
  nowrap_global : Bool
  get_width : String → Int
  render : List String → List (List String) → String
  fill : Nat → String → String
  tzoff : Int

/-- Embeds `_build_row_from_object(fields, formatters, o)`: one display
value per field in order.  With a registered formatter the raw attribute
is normalized by `parse_date`, written back onto the object, and the
formatter is invoked on the object; without one the normalized raw
attribute is the cell.  The updated object is returned alongside the
row. -/
def _build_row_from_object (env : Env) (fields : List String)
    (fmts : List (String × Fmt)) (o : Obj) : List String × Obj :=
  match fields with
  | [] => ([], o)
  | f :: rest =>
    match fmts.lookup f with
    | some φ =>
      let data := parse_date env.tzoff (getattrD o f "")
      let o1 := setattr o f data
      let cell := callFmt env.nowrap_global φ o1
      let pr := _build_row_from_object env rest fmts o1
      (cell :: pr.1, pr.2)
    | none =>
      let data := parse_date env.tzoff (getattrD o f "")
      let pr := _build_row_from_object env rest fmts o
      (data :: pr.1, pr.2)

/-! ### Sorting: `_sort_for_list`

Source: utils.py lines 285-308.  Python's `list.sort` is a stable sort;
string keys compare lexicographically by code point.  The embedding uses
a stable insertion sort over the same total preorder, which produces the
identical list. -/

/-- Lexicographic comparison of character lists by code point, embedding
Python string comparison. -/
def lexLe : List Char → List Char → Bool
  | [], _ => true
  | _ :: _, [] => false
  | a :: as, b :: bs =>
    if a.toNat < b.toNat then true
    else if b.toNat < a.toNat then false
    else lexLe as bs

/-- The ascending order on objects induced by a string key. -/
abbrev pyLe (key : Obj → String) : Obj → Obj → Prop :=
  fun a b => lexLe (key a).data (key b).data = true

/-- The descending order on objects induced by a string key
(`reverse=True` keeps ties in original order, so the relation only swaps
the key comparison). -/
abbrev pyLeRev (key : Obj → String) : Obj → Obj → Prop :=
  fun a b => lexLe (key b).data (key a).data = true

instance pyLeDec (key : Obj → String) : DecidableRel (pyLe key) :=
  fun _ _ => instDecidableEqBool _ _

instance pyLeRevDec (key : Obj → String) : DecidableRel (pyLeRev key) :=
  fun _ _ => instDecidableEqBool _ _

/-- The sort key resolved for the designated field, as `_sort_for_list`
builds it: the wrapping formatter's unwrapped field value, else the plain
formatter's value, else the raw attribute defaulting to the empty
string. -/
def sortKeyFn (fmts : List (String × Fmt)) (sort_field : String) : Obj → String :=
  match fmts.lookup sort_field with
  | some φ =>
    if φ.isWrapping then φ.unwrappedVal else fun x => callFmt false φ x
  | none => fun x => getattrD x sort_field ""

/-- Embeds `_sort_for_list(objs, fields, formatters, sortby, reversesort)`.
With `sortby` equal to `None` the list is returned unsorted.  Otherwise
the objects are stably sorted by the resolved key of `fields[sortby]`
(an out-of-range index raises `IndexError` in Python; theorems about this
function assume the index is in range, and the embedding reads the field
with a default). -/
def _sort_for_list (objs : List Obj) (fields : List String)
    (fmts : List (String × Fmt)) (sortby : Option Nat) (reversesort : Bool) :
    List Obj :=
  match sortby with
  | none => objs
  | some i =>
    let key := sortKeyFn fmts (fields.getD i "")
    if reversesort then List.insertionSort (pyLeRev key) objs
    else List.insertionSort (pyLe key) objs

/-! ### The pager: `pt_builder` / `PT_Builder`

Source: utils.py lines 407-511.  The interactive prompt consumes answers
from an input list (`ins`); `printer` calls append to an output list.
All operations return `none` when the fuel runs out (the nested
recursion `add_row` -> `_row_add` -> `get_string` -> `add_row` is
otherwise unbounded) or where the Python original would raise. -/

/-- The prettytable object: header labels plus accumulated rows. -/
structure Table where
  labels : List String
  rows : List (List String)
deriving DecidableEq

/-- The mutable state of a `PT_Builder` instance. -/
structure PT where
  objs_in_pt : List Obj
  unwrapped_field_labels : List String
  fields : List String
  formatters : List (String × Fmt)
  header_height : Int
  terminal_width : Int
  terminal_height : Int
  terminal_lines_left : Int
  paging : Bool
  paged_rows_added : Nat
  pt : Option Table
  quit : Bool

/-- Embeds `PT_Builder.__init__` (terminal geometry supplied by the
environment). -/
def PT.init (env : Env) (field_labels fields : List String)
    (fmts : List (String × Fmt)) (no_paging : Bool) : PT :=
  { objs_in_pt := []
    unwrapped_field_labels := field_labels
    fields := fields
    formatters := fmts
    header_height := 0
    terminal_width := env.terminal_width
    terminal_height := env.terminal_height
    terminal_lines_left := env.terminal_height
    paging := !no_paging
    paged_rows_added := 0
    pt := none
    quit := false }

/-- Embeds `wordwrap_header(field, field_label, formatter)`: reflow the
label to the wrapping formatter's column width unless the global no-wrap
override is active or the field has no wrapping-capable formatter. -/
def wordwrap_header (env : Env) (field_label : String) (formatter : Option Fmt) :
    String :=
  if env.nowrap_global then field_label
  else
    match formatter with
    | some φ => if φ.isWrapping then env.fill φ.headerWidth field_label else field_label
    | none => field_label

/-- The word-wrapped header labels `build_pretty_table` computes. -/
def wrappedLabels (env : Env) (fmts : List (String × Fmt))
    (fields labels : List String) : List String :=
  List.zipWith (fun f lab => wordwrap_header env lab (fmts.lookup f)) fields labels

/-- Embeds `PT_Builder.build_pretty_table`: a fresh table with wrapped
header labels, a header height of 2 top border lines + 1 bottom border +
1 prompt line + the header row height, and the line budget reset to
terminal height minus header height. -/
def build_pretty_table (env : Env) (s : PT) : PT :=
  let labels := wrappedLabels env s.formatters s.fields s.unwrapped_field_labels
  let hh : Int := 2 + 1 + 1 + (row_height labels : Int)
  { s with
    pt := some ⟨labels, []⟩
    header_height := hh
    terminal_lines_left := s.terminal_height - hh }

/-- Embeds `PT_Builder.__add_row_and_obj`; fails where Python would raise
on a missing table. -/
def addRowAndObj (s : PT) (row : List String) (o : Obj) : Option PT :=
  match s.pt with
  | none => none
  | some t =>
    some { s with
           pt := some ⟨t.labels, t.rows ++ [row]⟩
           objs_in_pt := s.objs_in_pt ++ [o] }

/-- The pair of fuelled operations that recurse into each other:
`add_row` and `get_string`.  Each yields the new state, the remaining
input answers, the strings printed, and (for `add_row`) the Python return
value (`False`, `True` or `None`). -/
structure Fns where
  addRow : PT → Obj → List String → Option (PT × List String × List String × Option Bool)
  getString : PT → List String → Option (PT × List String × List String × String)

/-- The string of blank lines `printer("\n" * (terminal_lines_left - 1))`
emits to pad a short page. -/
def nlPad (n : Int) : String :=
  ⟨List.replicate (n - 1).toNat '\n'⟩

/-- Embeds `PT_Builder._row_add(obj)` given the next-lower-fuel
operations `g`. -/
def _row_add (env : Env) (g : Fns) (s : PT) (o : Obj) (ins : List String) :
    Option (PT × List String × List String × Option Bool) :=
  let ro := _build_row_from_object env s.fields s.formatters o
  if s.paging = false then
    match addRowAndObj s ro.1 ro.2 with
    | none => none
    | some s1 => some (s1, ins, [], some true)
  else
    let rh : Int := (row_height ro.1 : Int)
    if 0 ≤ s.terminal_lines_left - rh ∨ s.paged_rows_added = 0 then
      match addRowAndObj s ro.1 ro.2 with
      | none => none
      | some s1 =>
        some ({ s1 with
                terminal_lines_left := s1.terminal_lines_left - rh
                paged_rows_added := s1.paged_rows_added + 1 }, ins, [], none)
    else
      match g.getString s ins with
      | none => none
      | some (s1, ins1, outs1, str) =>
        let outs2 := outs1 ++ [str]
          ++ (if 0 < s1.terminal_lines_left then [nlPad s1.terminal_lines_left] else [])
        match ins1 with
        | [] => none
        | ans :: ins2 =>
          if ans = "q" then some ({ s1 with quit := true }, ins2, outs2, some false)
          else
            let s2 := { s1 with terminal_lines_left := s1.terminal_height - s1.header_height }
            let s3 := build_pretty_table env s2
            match addRowAndObj s3 ro.1 ro.2 with
            | none => none
            | some s4 =>
              some ({ s4 with
                      terminal_lines_left := s4.terminal_lines_left - rh
                      paged_rows_added := s4.paged_rows_added + 1 }, ins2, outs2, none)

/-- Embeds `PT_Builder.add_row(obj)` given the next-lower-fuel
operations. -/
def addRowBody (env : Env) (g : Fns) (s : PT) (o : Obj) (ins : List String) :
    Option (PT × List String × List String × Option Bool) :=
  if s.quit then some (s, ins, [], some false)
  else
    let s1 := if s.pt.isNone then build_pretty_table env s else s
    _row_add env g s1 o ins

/-- Replays a list of objects through `add_row`, threading state, input
and output (the `for o in objs: self.add_row(o)` loop of `get_string`,
and the driver loop of `print_long_list`). -/
def replay (f : PT → Obj → List String → Option (PT × List String × List String × Option Bool)) :
    PT → List Obj → List String → Option (PT × List String × List String)
  | s, [], ins => some (s, ins, [])
  | s, o :: os, ins =>
    match f s o ins with
    | none => none
    | some (s1, ins1, outs1, _) =>
      match replay f s1 os ins1 with
      | none => none
      | some (s2, ins2, outs2) => some (s2, ins2, outs1 ++ outs2)

/-- Embeds `PT_Builder.get_string()` given the next-lower-fuel
operations: render; if the global no-wrap override is active return at
once; otherwise measure the width, and on overflow force the formatters
to no-wrap, rebuild, replay the accumulated objects, restore the
formatter settings and return the new render with no further width
check. -/
def getStringBody (env : Env) (g : Fns) (s : PT) (ins : List String) :
    Option (PT × List String × List String × String) :=
  let s1 := if s.pt.isNone then build_pretty_table env s else s
  let objs := s1.objs_in_pt
  let s2 := { s1 with objs_in_pt := [] }
  match s2.pt with
  | none => none
  | some t =>
    let output := env.render t.labels t.rows
    if env.nowrap_global then some (s2, ins, [], output)
    else if env.get_width output ≤ s2.terminal_width then some (s2, ins, [], output)
    else
      let pr := set_no_wrap_on_formatters true s2.formatters
      let s3 := build_pretty_table env { s2 with formatters := pr.2 }
      match replay g.addRow s3 objs ins with
      | none => none
      | some (s4, ins4, outs4) =>
        let s5 := { s4 with formatters := unset_no_wrap_on_formatters pr.1 s4.formatters }
        match s5.pt with
        | none => none
        | some t5 => some (s5, ins4, outs4, env.render t5.labels t5.rows)

/-- The fuelled pager operations. -/
def pager (env : Env) : Nat → Fns
  | 0 => ⟨fun _ _ _ => none, fun _ _ => none⟩
  | fuel + 1 => ⟨addRowBody env (pager env fuel), getStringBody env (pager env fuel)⟩

/-- Embeds `PT_Builder.add_row` at a given fuel. -/
def add_row (env : Env) (fuel : Nat) :
    PT → Obj → List String → Option (PT × List String × List String × Option Bool) :=
  (pager env fuel).addRow

/-- Embeds `PT_Builder.get_string` at a given fuel. -/
def get_string (env : Env) (fuel : Nat) :
    PT → List String → Option (PT × List String × List String × String) :=
  (pager env fuel).getString

/-- Embeds `PT_Builder.done()`: after a quit nothing is emitted;
otherwise the final page is rendered and printed unless paging is on and
the current page holds no rows since the last full-height reset. -/
def done (env : Env) (fuel : Nat) (s : PT) (ins : List String) :
    Option (PT × List String × List String) :=
  if s.quit then some (s, ins, [])
  else if !s.paging || s.terminal_lines_left < s.terminal_height - s.header_height then
    match get_string env fuel s ins with
    | none => none
    | some (s1, ins1, outs1, str) => some (s1, ins1, outs1 ++ [str])
  else some (s, ins, [])

/-- Embeds `print_long_list` from the point where the wrapping formatters
have been derived: sort, drive the pager over every object, finalize.
(`print_list` is the same call with `no_paging = true`.) -/
def print_long_list (env : Env) (fuel : Nat) (objs : List Obj)
    (fields field_labels : List String) (fmts : List (String × Fmt))
    (sortby : Option Nat) (reversesort no_paging : Bool) (ins : List String) :
    Option (PT × List String × List String) :=
  let objs1 := _sort_for_list objs fields fmts sortby reversesort
  let s := PT.init env field_labels fields fmts no_paging
  match replay (add_row env fuel) s objs1 ins with
  | none => none
  | some (s1, ins1, outs1) =>
    match done env fuel s1 ins1 with
    | none => none
    | some (s2, ins2, outs2) => some (s2, ins2, outs1 ++ outs2)

/-! ## Specification-side definitions

Definitions written from the specification's words, to be compared with
the source embeddings above. -/

/-- The height of a text as the specification states it: 1 for empty or
`None`, else the number of embedded line breaks plus 1. -/
def strHeightSpec : Option String → Nat
  | none => 1
  | some s => s.data.count '\n' + 1

/-- The height of a row as the specification states it: the maximum
`str_height` over the cells, and 1 for an empty collection (every cell
height is at least 1, so folding `max` from 1 realizes both clauses). -/
def rowHeightSpec (texts : List String) : Nat :=
  (texts.map (fun t => strHeightSpec (some t))).foldr Nat.max 1

/-! ## Helper lemmas -/

theorem add_row_succ (env : Env) (fuel : Nat) :
    add_row env (fuel + 1) = addRowBody env (pager env fuel) := rfl

theorem get_string_succ (env : Env) (fuel : Nat) :
    get_string env (fuel + 1) = getStringBody env (pager env fuel) := rfl

theorem splitNl_ne_nil (l : List Char) : splitNl l ≠ [] := by
  cases l with
  | nil => simp [splitNl]
  | cons c cs =>
    simp only [splitNl]
    split
    · simp
    · split
      · simp
      · simp

theorem splitNl_length (l : List Char) :
    (splitNl l).length = l.count '\n' + 1 := by
  induction l with
  | nil => simp [splitNl]
  | cons c cs ih =>
    simp only [splitNl]
    by_cases h : c = '\n'
    · simp [h, List.count_cons, ih]
    · rcases hs : splitNl cs with _ | ⟨line, rest⟩
      · exact absurd hs (splitNl_ne_nil cs)
      · simp only [h, if_neg h, List.length_cons, List.count_cons]
        rw [hs] at ih
        simp only [List.length_cons] at ih
        simp [ih, h]

theorem str_height_pos (t : Option String) : 1 ≤ str_height t := by
  cases t with
  | none => simp [str_height]
  | some s =>
    simp only [str_height]
    split
    · exact le_refl 1
    · rw [splitNl_length]; omega

theorem foldl_max_eq (l : List Nat) (a : Nat) :
    l.foldl Nat.max a = Nat.max a (l.foldr Nat.max 0) := by
  induction l generalizing a with
  | nil => simp
  | cons c l ih => simp [ih, Nat.max_assoc]

theorem foldr_max_one (l : List Nat) (h : ∀ x ∈ l, 1 ≤ x) (hne : l ≠ []) :
    l.foldr Nat.max 0 = l.foldr Nat.max 1 := by
  induction l with
  | nil => simp at hne
  | cons c l ih =>
    rcases l with _ | ⟨d, l⟩
    · have hc : 1 ≤ c := h c (by simp)
      simp only [List.foldr, Nat.max_def]
      split <;> split <;> omega
    · simp only [List.foldr] at ih ⊢
      rw [ih (fun x hx => h x (List.mem_cons_of_mem c hx)) (by simp)]

/-! ## C8: height calculator -/

/-- C8.  For every text value, `str_height` returns 1 when the value is
empty or `None` and otherwise the number of embedded line breaks plus 1;
for every row, `row_height` returns the maximum `str_height` over the
cells, and 1 for an empty collection. -/
theorem C8_height_calculator :
    (∀ t : Option String, str_height t = strHeightSpec t)
      ∧ (∀ texts : List String, row_height texts = rowHeightSpec texts) := by
  have hstr : ∀ t : Option String, str_height t = strHeightSpec t := by
    intro t
    cases t with
    | none => rfl
    | some s =>
      simp only [str_height, strHeightSpec]
      split
      · rename_i h
        simp [h]
      · exact splitNl_length s.data
  refine ⟨hstr, ?_⟩
  intro texts
  rcases texts with _ | ⟨t, ts⟩
  · rfl
  · simp only [row_height, rowHeightSpec, if_neg (List.cons_ne_nil t ts)]
    rw [foldl_max_eq]
    rw [foldr_max_one]
    · have : ∀ l : List String,
          (l.map (fun t => str_height (some t))).foldr Nat.max 1 =
            (l.map (fun t => strHeightSpec (some t))).foldr Nat.max 1 := by
        intro l
        induction l with
        | nil => rfl
        | cons x l ih => simp [ih, hstr (some x)]
      rw [this]
      simp only [Nat.max_def]
      split
      · rfl
      · omega
    · intro x hx
      simp only [List.mem_map] at hx
      obtain ⟨u, _, hu⟩ := hx
      exact hu ▸ str_height_pos (some u)
    · simp

/-! ## C9: no-wrap override short-circuits the width fallback -/

/-- With the table already built, `get_string` on a state whose pt is
present returns the render unchanged when either the global no-wrap
override is active or the measured width fits the terminal. -/
theorem get_string_nofb (env : Env) (fuel : Nat) (s : PT) (t : Table)
    (ins : List String) (hpt : s.pt = some t)
    (hok : env.nowrap_global = true
      ∨ env.get_width (env.render t.labels t.rows) ≤ s.terminal_width) :
    get_string env (fuel + 1) s ins =
      some ({ s with objs_in_pt := [] }, ins, [], env.render t.labels t.rows) := by
  rw [get_string_succ]
  unfold getStringBody
  simp only [hpt, Option.isNone_some, Bool.false_eq_true, if_false]
  rcases hok with hnw | hwidth
  · simp [hnw]
  · by_cases hnw : env.nowrap_global
    · simp [hnw]
    · simp [hnw, hwidth]

theorem pager_getString (env : Env) (fuel : Nat) :
    (pager env fuel).getString = get_string env fuel := rfl

theorem pager_addRow (env : Env) (fuel : Nat) :
    (pager env fuel).addRow = add_row env fuel := rfl

/-- The row and updated object `_row_add` computes for an incoming
object. -/
def builtRow (env : Env) (s : PT) (o : Obj) : List String × Obj :=
  _build_row_from_object env s.fields s.formatters o

/-- With paging on, a built table, and either enough lines left for the
row or no row added yet, `add_row` commits the row to the current page
and decrements the line budget by exactly the row's height. -/
theorem add_row_fit_eq (env : Env) (fuel : Nat) (s : PT) (t : Table) (o : Obj)
    (ins : List String) (hq : s.quit = false) (hpt : s.pt = some t)
    (hpag : s.paging = true)
    (hfit : 0 ≤ s.terminal_lines_left - (row_height (builtRow env s o).1 : Int)
      ∨ s.paged_rows_added = 0) :
    add_row env (fuel + 1) s o ins =
      some ({ s with
              pt := some ⟨t.labels, t.rows ++ [(builtRow env s o).1]⟩
              objs_in_pt := s.objs_in_pt ++ [(builtRow env s o).2]
              terminal_lines_left :=
                s.terminal_lines_left - (row_height (builtRow env s o).1 : Int)
              paged_rows_added := s.paged_rows_added + 1 }, ins, [], none) := by
  rw [add_row_succ]
  unfold addRowBody
  simp only [hq, Bool.false_eq_true, if_false, hpt, Option.isNone_some,
    Bool.false_eq_true, if_false]
  unfold _row_add
  simp only [hpag, Bool.true_eq_false, if_false]
  simp only [builtRow] at hfit ⊢
  rw [if_pos hfit]
  simp [addRowAndObj, hpt, hpag, hq]

/-- With paging off and a built table, `add_row` appends unconditionally:
no height check, no prompt, no output, returning `True`. -/
theorem add_row_nopaging_eq (env : Env) (fuel : Nat) (s : PT) (t : Table) (o : Obj)
    (ins : List String) (hq : s.quit = false) (hpt : s.pt = some t)
    (hpag : s.paging = false) :
    add_row env (fuel + 1) s o ins =
      some ({ s with
              pt := some ⟨t.labels, t.rows ++ [(builtRow env s o).1]⟩
              objs_in_pt := s.objs_in_pt ++ [(builtRow env s o).2] },
            ins, [], some true) := by
  rw [add_row_succ]
  unfold addRowBody
  simp only [hq, Bool.false_eq_true, if_false, hpt, Option.isNone_some, if_false]
  unfold _row_add
  simp [hpag, addRowAndObj, hpt, builtRow, hq]

/-- With paging on, a built table, a row that does not fit, at least one
row already added, and a rendering that fits the terminal width (so the
flush inside the page break does not trigger the width fallback),
`add_row` flushes the page, pads it, prompts, and then either quits (on
the answer `q`, leaving the table and counters untouched) or rebuilds a
fresh page holding exactly the pending row, whatever its height. -/
theorem add_row_break_eq (env : Env) (fuel : Nat) (s : PT) (t : Table) (o : Obj)
    (ans : String) (rest : List String)
    (hq : s.quit = false) (hpt : s.pt = some t) (hpag : s.paging = true)
    (hnofit : ¬ 0 ≤ s.terminal_lines_left - (row_height (builtRow env s o).1 : Int))
    (hfirst : s.paged_rows_added ≠ 0)
    (hok : env.nowrap_global = true
      ∨ env.get_width (env.render t.labels t.rows) ≤ s.terminal_width) :
    add_row env (fuel + 2) s o (ans :: rest) =
      (if ans = "q" then
        some ({ s with objs_in_pt := [], quit := true }, rest,
              [env.render t.labels t.rows]
                ++ (if 0 < s.terminal_lines_left then [nlPad s.terminal_lines_left]
                    else []),
              some false)
      else
        some ({ s with
                objs_in_pt := [(builtRow env s o).2]
                pt := some ⟨wrappedLabels env s.formatters s.fields
                              s.unwrapped_field_labels, [(builtRow env s o).1]⟩
                header_height :=
                  2 + 1 + 1 + (row_height (wrappedLabels env s.formatters s.fields
                    s.unwrapped_field_labels) : Int)
                terminal_lines_left :=
                  s.terminal_height
                    - (2 + 1 + 1 + (row_height (wrappedLabels env s.formatters s.fields
                        s.unwrapped_field_labels) : Int))
                    - (row_height (builtRow env s o).1 : Int)
                paged_rows_added := s.paged_rows_added + 1 }, rest,
              [env.render t.labels t.rows]
                ++ (if 0 < s.terminal_lines_left then [nlPad s.terminal_lines_left]
                    else []),
              none)) := by
  rw [show fuel + 2 = fuel + 1 + 1 from rfl, add_row_succ]
  unfold addRowBody
  simp only [hq, Bool.false_eq_true, if_false, hpt, Option.isNone_some, if_false]
  unfold _row_add
  simp only [hpag, Bool.true_eq_false, if_false]
  simp only [builtRow] at hnofit ⊢
  rw [if_neg (by push_neg; refine ⟨?_, hfirst⟩; omega)]
  rw [pager_getString, get_string_nofb env fuel s t (ans :: rest) hpt hok]
  by_cases han : ans = "q"
  · simp [han, hpag, hpt, hq]
  · simp only [han, Bool.false_eq_true, if_false]
    unfold build_pretty_table
    simp [addRowAndObj, han, hpag, hpt, hq]

/-! ## C2: paging bound with first-row exception -/

/-- C2.  With paging enabled, a row is committed to the current page
exactly when the line budget minus the row's height stays nonnegative or
no row has been committed yet, and a commit decrements the budget by
precisely the row's height (first conjunct).  When the check fails, the
page is flushed and — on continue — the pending row is re-added to a
fresh page unconditionally, with no constraint on its height (second
conjunct); the fresh budget is terminal height minus the rebuilt header
height minus the row's height.  Rows on a page therefore never exceed
terminal height minus header height except when a page's first row alone
does.  (The flush hypothesis `hok` keeps the width fallback, which is
C1's subject, out of the picture.) -/
theorem C2_paging_bound (env : Env) (fuel : Nat) (s : PT) (t : Table) (o : Obj)
    (ans : String) (rest ins : List String)
    (hq : s.quit = false) (hpt : s.pt = some t) (hpag : s.paging = true)
    (hok : env.nowrap_global = true
      ∨ env.get_width (env.render t.labels t.rows) ≤ s.terminal_width) :
    ((0 ≤ s.terminal_lines_left - (row_height (builtRow env s o).1 : Int)
        ∨ s.paged_rows_added = 0) →
      add_row env (fuel + 2) s o ins =
        some ({ s with
                pt := some ⟨t.labels, t.rows ++ [(builtRow env s o).1]⟩
                objs_in_pt := s.objs_in_pt ++ [(builtRow env s o).2]
                terminal_lines_left :=
                  s.terminal_lines_left - (row_height (builtRow env s o).1 : Int)
                paged_rows_added := s.paged_rows_added + 1 }, ins, [], none))
    ∧ (¬ 0 ≤ s.terminal_lines_left - (row_height (builtRow env s o).1 : Int) →
        s.paged_rows_added ≠ 0 → ans ≠ "q" →
      add_row env (fuel + 2) s o (ans :: rest) =
        some ({ s with
                objs_in_pt := [(builtRow env s o).2]
                pt := some ⟨wrappedLabels env s.formatters s.fields
                              s.unwrapped_field_labels, [(builtRow env s o).1]⟩
                header_height :=
                  2 + 1 + 1 + (row_height (wrappedLabels env s.formatters s.fields
                    s.unwrapped_field_labels) : Int)
                terminal_lines_left :=
                  s.terminal_height
                    - (2 + 1 + 1 + (row_height (wrappedLabels env s.formatters s.fields
                        s.unwrapped_field_labels) : Int))
                    - (row_height (builtRow env s o).1 : Int)
                paged_rows_added := s.paged_rows_added + 1 }, rest,
              [env.render t.labels t.rows]
                ++ (if 0 < s.terminal_lines_left then [nlPad s.terminal_lines_left]
                    else []),
              none)) := by
  constructor
  · intro hfit
    exact add_row_fit_eq env (fuel + 1) s t o ins hq hpt hpag hfit
  · intro hnofit hfirst han
    rw [add_row_break_eq env fuel s t o ans rest hq hpt hpag hnofit hfirst hok]
    simp [han]

/-- Witness for C2 at a concrete state: an exhausted 0-line budget and a
1-line row, so the break-and-rebuild conjunct applies on answer `c`. -/
theorem C2_paging_bound_witness :
    (({ objs_in_pt := [], unwrapped_field_labels := [], fields := [],
        formatters := [], header_height := 5, terminal_width := 80,
        terminal_height := 7, terminal_lines_left := 0, paging := true,
        paged_rows_added := 1, pt := some ⟨[], [["r1"]]⟩,
        quit := false } : PT).paging = true)
    ∧ (((0 : Int) ≤ 0 - 1 ∨ (1 : Nat) = 0 →
        add_row
          { terminal_width := 80, terminal_height := 7, nowrap_global := true,
            get_width := fun _ => 0, render := fun _ _ => "TBL",
            fill := fun _ s => s, tzoff := 0 }
          2
          { objs_in_pt := [], unwrapped_field_labels := [], fields := [],
            formatters := [], header_height := 5, terminal_width := 80,
            terminal_height := 7, terminal_lines_left := 0, paging := true,
            paged_rows_added := 1, pt := some ⟨[], [["r1"]]⟩, quit := false }
          [] [] =
          some ({ objs_in_pt := [[]], unwrapped_field_labels := [], fields := [],
                  formatters := [], header_height := 5, terminal_width := 80,
                  terminal_height := 7, terminal_lines_left := 0 - 1,
                  paging := true, paged_rows_added := 2,
                  pt := some ⟨[], [["r1"], []]⟩, quit := false },
                [], [], none))
      ∧ (¬ (0 : Int) ≤ 0 - 1 → (1 : Nat) ≠ 0 → "c" ≠ "q" →
        add_row
          { terminal_width := 80, terminal_height := 7, nowrap_global := true,
            get_width := fun _ => 0, render := fun _ _ => "TBL",
            fill := fun _ s => s, tzoff := 0 }
          2
          { objs_in_pt := [], unwrapped_field_labels := [], fields := [],
            formatters := [], header_height := 5, terminal_width := 80,
            terminal_height := 7, terminal_lines_left := 0, paging := true,
            paged_rows_added := 1, pt := some ⟨[], [["r1"]]⟩, quit := false }
          [] ["c"] =
          some ({ objs_in_pt := [[]], unwrapped_field_labels := [], fields := [],
                  formatters := [], header_height := 5, terminal_width := 80,
                  terminal_height := 7, terminal_lines_left := 1,
                  paging := true, paged_rows_added := 2,
                  pt := some ⟨[], [[]]⟩, quit := false },
                [], ["TBL"], none))) :=
  ⟨rfl,
   C2_paging_bound
     { terminal_width := 80, terminal_height := 7, nowrap_global := true,
       get_width := fun _ => 0, render := fun _ _ => "TBL",
       fill := fun _ s => s, tzoff := 0 }
     0
     { objs_in_pt := [], unwrapped_field_labels := [], fields := [],
       formatters := [], header_height := 5, terminal_width := 80,
       terminal_height := 7, terminal_lines_left := 0, paging := true,
       paged_rows_added := 1, pt := some ⟨[], [["r1"]]⟩, quit := false }
     ⟨[], [["r1"]]⟩ [] "c" [] []
     rfl rfl rfl (Or.inl rfl)⟩

/-! ## C3: quit semantics -/

/-- C3.  Once quit is set, every `add_row` returns the stop signal
`False` with the state, input and output untouched, and `done` emits
nothing (first two conjuncts).  The third conjunct shows the transition:
answering `q` at a page-break prompt sets the quit flag, returns `False`,
and leaves the table, the line budget and the row counter unchanged (only
the accumulated-objects list was cleared by the flush). -/
theorem C3_quit_semantics (env : Env) (fuel : Nat) (s s₀ : PT) (t₀ : Table)
    (o o₀ : Obj) (ins rest : List String)
    (hq : s.quit = true)
    (hq₀ : s₀.quit = false) (hpt₀ : s₀.pt = some t₀) (hpag₀ : s₀.paging = true)
    (hnofit : ¬ 0 ≤ s₀.terminal_lines_left - (row_height (builtRow env s₀ o₀).1 : Int))
    (hfirst : s₀.paged_rows_added ≠ 0)
    (hok : env.nowrap_global = true
      ∨ env.get_width (env.render t₀.labels t₀.rows) ≤ s₀.terminal_width) :
    (add_row env (fuel + 1) s o ins = some (s, ins, [], some false))
    ∧ (done env fuel s ins = some (s, ins, []))
    ∧ (add_row env (fuel + 2) s₀ o₀ ("q" :: rest) =
        some ({ s₀ with objs_in_pt := [], quit := true }, rest,
              [env.render t₀.labels t₀.rows]
                ++ (if 0 < s₀.terminal_lines_left then [nlPad s₀.terminal_lines_left]
                    else []),
              some false)) := by
  refine ⟨?_, ?_, ?_⟩
  · rw [add_row_succ]
    unfold addRowBody
    simp [hq]
  · unfold done
    simp [hq]
  · rw [add_row_break_eq env fuel s₀ t₀ o₀ "q" rest hq₀ hpt₀ hpag₀ hnofit hfirst hok]
    simp

/-- Witness for C3 at concrete states: a quit state, and a full page
whose prompt is answered with `q`. -/
theorem C3_quit_semantics_witness :
    (add_row
      { terminal_width := 80, terminal_height := 7, nowrap_global := true,
        get_width := fun _ => 0, render := fun _ _ => "TBL", fill := fun _ s => s,
        tzoff := 0 }
      1
      { objs_in_pt := [], unwrapped_field_labels := [], fields := [],
        formatters := [], header_height := 5, terminal_width := 80,
        terminal_height := 7, terminal_lines_left := 2, paging := true,
        paged_rows_added := 3, pt := some ⟨[], []⟩, quit := true }
      [] [] = some
        ({ objs_in_pt := [], unwrapped_field_labels := [], fields := [],
           formatters := [], header_height := 5, terminal_width := 80,
           terminal_height := 7, terminal_lines_left := 2, paging := true,
           paged_rows_added := 3, pt := some ⟨[], []⟩, quit := true },
         [], [], some false))
    ∧ (add_row
      { terminal_width := 80, terminal_height := 7, nowrap_global := true,
        get_width := fun _ => 0, render := fun _ _ => "TBL", fill := fun _ s => s,
        tzoff := 0 }
      2
      { objs_in_pt := [[("a", "x")]], unwrapped_field_labels := [], fields := [],
        formatters := [], header_height := 5, terminal_width := 80,
        terminal_height := 7, terminal_lines_left := 0, paging := true,
        paged_rows_added := 1, pt := some ⟨[], [["r1"]]⟩, quit := false }
      [("b", "y")] ["q"] = some
        ({ objs_in_pt := [], unwrapped_field_labels := [], fields := [],
           formatters := [], header_height := 5, terminal_width := 80,
           terminal_height := 7, terminal_lines_left := 0, paging := true,
           paged_rows_added := 1, pt := some ⟨[], [["r1"]]⟩, quit := true },
         [], ["TBL"], some false)) := by
  have h := C3_quit_semantics
    { terminal_width := 80, terminal_height := 7, nowrap_global := true,
      get_width := fun _ => 0, render := fun _ _ => "TBL", fill := fun _ s => s,
      tzoff := 0 }
    0
    { objs_in_pt := [], unwrapped_field_labels := [], fields := [],
      formatters := [], header_height := 5, terminal_width := 80,
      terminal_height := 7, terminal_lines_left := 2, paging := true,
      paged_rows_added := 3, pt := some ⟨[], []⟩, quit := true }
    { objs_in_pt := [[("a", "x")]], unwrapped_field_labels := [], fields := [],
      formatters := [], header_height := 5, terminal_width := 80,
      terminal_height := 7, terminal_lines_left := 0, paging := true,
      paged_rows_added := 1, pt := some ⟨[], [["r1"]]⟩, quit := false }
    ⟨[], [["r1"]]⟩
    [] [("b", "y")] [] []
    rfl rfl rfl rfl (by decide) (by decide) (Or.inl rfl)
  exact ⟨h.1, h.2.2⟩

/-- With no table yet and paging off, the first `add_row` lazily builds
the table and appends the first row. -/
theorem add_row_first_nopaging_eq (env : Env) (fuel : Nat) (s : PT) (o : Obj)
    (ins : List String) (hq : s.quit = false) (hptn : s.pt = none)
    (hpag : s.paging = false) :
    add_row env (fuel + 1) s o ins =
      some ({ s with
              pt := some ⟨wrappedLabels env s.formatters s.fields
                            s.unwrapped_field_labels, [(builtRow env s o).1]⟩
              objs_in_pt := s.objs_in_pt ++ [(builtRow env s o).2]
              header_height :=
                2 + 1 + 1 + (row_height (wrappedLabels env s.formatters s.fields
                  s.unwrapped_field_labels) : Int)
              terminal_lines_left :=
                s.terminal_height
                  - (2 + 1 + 1 + (row_height (wrappedLabels env s.formatters s.fields
                      s.unwrapped_field_labels) : Int)) },
            ins, [], some true) := by
  rw [add_row_succ]
  unfold addRowBody
  simp only [hq, Bool.false_eq_true, if_false, hptn, Option.isNone_none, if_true]
  unfold _row_add build_pretty_table
  simp [hpag, addRowAndObj, builtRow, hq]

/-- Replaying objects through `add_row` with paging off appends one row
per object, in order, touching neither input nor output. -/
theorem replay_nopaging (env : Env) (fuel : Nat) :
    ∀ (objs : List Obj) (s : PT) (t : Table) (ins : List String),
    s.quit = false → s.pt = some t → s.paging = false →
    replay (add_row env (fuel + 1)) s objs ins =
      some ({ s with
              pt := some ⟨t.labels, t.rows
                ++ objs.map (fun o => (_build_row_from_object env s.fields s.formatters o).1)⟩
              objs_in_pt := s.objs_in_pt
                ++ objs.map (fun o => (_build_row_from_object env s.fields s.formatters o).2) },
            ins, []) := by
  intro objs
  induction objs with
  | nil =>
    intro s t ins hq hpt hpag
    obtain ⟨ol, ul, fl, fm, hh, tw, th, tl, pg, pr, pt, qt⟩ := s
    obtain ⟨lab, rows⟩ := t
    simp only [PT.mk.injEq] at hpt ⊢
    simp [replay, hpt]
  | cons o os ih =>
    intro s t ins hq hpt hpag
    unfold replay
    rw [add_row_nopaging_eq env fuel s t o ins hq hpt hpag]
    dsimp only
    rw [ih { s with
             pt := some ⟨t.labels, t.rows ++ [(builtRow env s o).1]⟩
             objs_in_pt := s.objs_in_pt ++ [(builtRow env s o).2] }
          ⟨t.labels, t.rows ++ [(builtRow env s o).1]⟩ ins
          (by simp [hq]) (by simp) (by simp [hpag])]
    simp [builtRow]

/-- Replaying a non-empty object list with paging off starting from a
state with no table yet: the table is built lazily on the first row. -/
theorem replay_first_nopaging (env : Env) (fuel : Nat) (s : PT) (o : Obj)
    (os : List Obj) (ins : List String) (hq : s.quit = false)
    (hptn : s.pt = none) (hpag : s.paging = false) :
    replay (add_row env (fuel + 1)) s (o :: os) ins =
      some ({ s with
              pt := some ⟨wrappedLabels env s.formatters s.fields
                            s.unwrapped_field_labels,
                (o :: os).map (fun o => (_build_row_from_object env s.fields s.formatters o).1)⟩
              objs_in_pt := s.objs_in_pt
                ++ (o :: os).map (fun o => (_build_row_from_object env s.fields s.formatters o).2)
              header_height :=
                2 + 1 + 1 + (row_height (wrappedLabels env s.formatters s.fields
                  s.unwrapped_field_labels) : Int)
              terminal_lines_left :=
                s.terminal_height
                  - (2 + 1 + 1 + (row_height (wrappedLabels env s.formatters s.fields
                      s.unwrapped_field_labels) : Int)) },
            ins, []) := by
  unfold replay
  rw [add_row_first_nopaging_eq env fuel s o ins hq hptn hpag]
  dsimp only
  rw [replay_nopaging env fuel os
        { s with
          pt := some ⟨wrappedLabels env s.formatters s.fields
                        s.unwrapped_field_labels, [(builtRow env s o).1]⟩
          objs_in_pt := s.objs_in_pt ++ [(builtRow env s o).2]
          header_height :=
            2 + 1 + 1 + (row_height (wrappedLabels env s.formatters s.fields
              s.unwrapped_field_labels) : Int)
          terminal_lines_left :=
            s.terminal_height
              - (2 + 1 + 1 + (row_height (wrappedLabels env s.formatters s.fields
                  s.unwrapped_field_labels) : Int)) }
        ⟨wrappedLabels env s.formatters s.fields s.unwrapped_field_labels,
          [(builtRow env s o).1]⟩ ins (by simp [hq]) (by simp) (by simp [hpag])]
  simp [builtRow]

/-- With a built table whose render fits (or the no-wrap override on),
`done` outside paging mode emits the render exactly once. -/
theorem done_nopaging_eq (env : Env) (fuel : Nat) (s : PT) (t : Table)
    (ins : List String) (hq : s.quit = false) (hpt : s.pt = some t)
    (hpag : s.paging = false)
    (hok : env.nowrap_global = true
      ∨ env.get_width (env.render t.labels t.rows) ≤ s.terminal_width) :
    done env (fuel + 1) s ins =
      some ({ s with objs_in_pt := [] }, ins, [env.render t.labels t.rows]) := by
  unfold done
  rw [get_string_nofb env fuel s t ins hpt hok]
  simp [hq, hpag]

/-! ## C4: non-paging mode -/

/-- C4.  With paging disabled, every `add_row` appends unconditionally
(no height check, no prompt, no intermediate flush — the run consumes no
input and the only output is the final one), and `done` invokes the
output sink exactly once with a render containing one row per object, in
the `_sort_for_list` order: sorted when a sort field was designated, the
input order otherwise.  The hypothesis `hok` excludes the width fallback
(C1's subject), which would re-derive the same rows unwrapped. -/
theorem C4_nonpaging (env : Env) (fuel : Nat) (objs : List Obj)
    (fields field_labels : List String) (fmts : List (String × Fmt))
    (sortby : Option Nat) (rev : Bool) (ins : List String)
    (hok : env.nowrap_global = true
      ∨ env.get_width (env.render (wrappedLabels env fmts fields field_labels)
          ((_sort_for_list objs fields fmts sortby rev).map
            (fun o => (_build_row_from_object env fields fmts o).1)))
        ≤ env.terminal_width) :
    Option.map (fun r => (r.2.1, r.2.2))
      (print_long_list env (fuel + 1) objs fields field_labels fmts sortby rev
        true ins) =
      some (ins,
        [env.render (wrappedLabels env fmts fields field_labels)
          ((_sort_for_list objs fields fmts sortby rev).map
            (fun o => (_build_row_from_object env fields fmts o).1))]) := by
  unfold print_long_list
  dsimp only
  rcases hobjs : _sort_for_list objs fields fmts sortby rev with _ | ⟨o, os⟩
  · rw [hobjs] at hok
    unfold replay
    unfold done
    rw [get_string_succ]
    unfold getStringBody
    simp only [PT.init, Option.isNone_none, if_true]
    unfold build_pretty_table
    rcases hok with hnw | hw
    · simp [hnw]
    · by_cases hnw : env.nowrap_global
      · simp [hnw]
      · simp only [List.map_nil] at hw
        simp [hnw, hw]
  · rw [hobjs] at hok
    rw [replay_first_nopaging env fuel (PT.init env field_labels fields fmts true)
          o os ins rfl rfl rfl]
    dsimp only
    rw [done_nopaging_eq env fuel _
      ⟨wrappedLabels env fmts fields field_labels,
        (o :: os).map (fun o => (_build_row_from_object env fields fmts o).1)⟩
      ins rfl (by simp [PT.init]) rfl (by simpa [PT.init] using hok)]
    simp [PT.init]

/-- Witness for C4: three objects over fields name and status, no
formatters, no sort. -/
theorem C4_nonpaging_witness :
    Option.map (fun r => (r.2.1, r.2.2))
      (print_long_list
        { terminal_width := 80, terminal_height := 24, nowrap_global := false,
          get_width := fun _ => 10, render := fun _ rows => toString rows.length,
          fill := fun _ s => s, tzoff := 0 }
        1
        [[("name", "a"), ("status", "up")], [("name", "b"), ("status", "down")],
         [("name", "c"), ("status", "up")]]
        ["name", "status"] ["Name", "Status"] [] none false true []) =
      some ([], ["3"]) :=
  C4_nonpaging
    { terminal_width := 80, terminal_height := 24, nowrap_global := false,
      get_width := fun _ => 10, render := fun _ rows => toString rows.length,
      fill := fun _ s => s, tzoff := 0 }
    0
    [[("name", "a"), ("status", "up")], [("name", "b"), ("status", "down")],
     [("name", "c"), ("status", "up")]]
    ["name", "status"] ["Name", "Status"] [] none false []
    (Or.inr (by decide))

/-! ## C6: the row builder -/

/-- One step of the specification's row builder: with a registered
formatter, normalize, write back, format; without one, the normalized raw
attribute (the getattr default makes a missing attribute an empty
string). -/
def rowSpecStep (env : Env) (fmts : List (String × Fmt)) :
    List String × Obj → String → List String × Obj :=
  fun acc f =>
    match fmts.lookup f with
    | some φ =>
      let v := parse_date env.tzoff (getattrD acc.2 f "")
      let o1 := setattr acc.2 f v
      (acc.1 ++ [callFmt env.nowrap_global φ o1], o1)
    | none => (acc.1 ++ [parse_date env.tzoff (getattrD acc.2 f "")], acc.2)

/-- The row builder as the specification describes it: fold over the
ordered field list, producing one display value per field. -/
def rowSpec (env : Env) (fields : List String) (fmts : List (String × Fmt))
    (o : Obj) : List String × Obj :=
  fields.foldl (rowSpecStep env fmts) ([], o)

theorem rowSpec_aux (env : Env) (fmts : List (String × Fmt)) :
    ∀ (fields : List String) (acc : List String) (o : Obj),
    fields.foldl (rowSpecStep env fmts) (acc, o) =
      (acc ++ (_build_row_from_object env fields fmts o).1,
       (_build_row_from_object env fields fmts o).2) := by
  intro fields
  induction fields with
  | nil =>
    intro acc o
    simp [_build_row_from_object]
  | cons f rest ih =>
    intro acc o
    simp only [List.foldl_cons]
    rcases hl : fmts.lookup f with _ | φ
    · simp only [rowSpecStep, hl]
      rw [ih]
      simp [_build_row_from_object, hl]
    · simp only [rowSpecStep, hl]
      rw [ih]
      simp [_build_row_from_object, hl]

theorem parse_date_empty (off : Int) : parse_date off "" = "" := rfl

/-- C6.  The row builder produces one display value per field in order
(the source function coincides with the specification's fold and yields
`fields.length` cells); with a registered formatter the normalized value
is written back via `setattr` before the formatter runs, without one the
normalized raw attribute is the cell (both visible in the fold step); a
field missing on the object yields the empty string and never raises. -/
theorem C6_row_builder (env : Env) (fields : List String)
    (fmts : List (String × Fmt)) (o : Obj) :
    (_build_row_from_object env fields fmts o = rowSpec env fields fmts o)
    ∧ ((_build_row_from_object env fields fmts o).1.length = fields.length)
    ∧ (∀ f, fmts.lookup f = none → o.lookup f = none →
        _build_row_from_object env [f] fmts o = ([""], o)) := by
  refine ⟨?_, ?_, ?_⟩
  · rw [rowSpec, rowSpec_aux]
    simp
  · induction fields generalizing o with
    | nil => rfl
    | cons f rest ih =>
      rcases hl : fmts.lookup f with _ | φ
      · simp [_build_row_from_object, hl, ih]
      · simp [_build_row_from_object, hl, ih]
  · intro f hfm hmiss
    simp [_build_row_from_object, hfm, getattrD, hmiss, parse_date_empty]

/-! ## C7: sorting -/

theorem lexLe_refl : ∀ l : List Char, lexLe l l = true := by
  intro l
  induction l with
  | nil => rfl
  | cons a as ih => simp [lexLe, ih]

theorem lexLe_total : ∀ as bs : List Char,
    lexLe as bs = true ∨ lexLe bs as = true := by
  intro as
  induction as with
  | nil => intro bs; left; rfl
  | cons a as ih =>
    intro bs
    cases bs with
    | nil => right; rfl
    | cons b bs =>
      by_cases hab : a.toNat < b.toNat
      · left; simp [lexLe, hab]
      · by_cases hba : b.toNat < a.toNat
        · right; simp [lexLe, hba]
        · rcases ih bs with h | h
          · left; simp [lexLe, hab, hba, h]
          · right; simp [lexLe, hab, hba, h]

theorem lexLe_trans : ∀ as bs cs : List Char,
    lexLe as bs = true → lexLe bs cs = true → lexLe as cs = true := by
  intro as
  induction as with
  | nil => intro bs cs _ _; rfl
  | cons a as ih =>
    intro bs cs hab hbc
    cases bs with
    | nil => simp [lexLe] at hab
    | cons b bs =>
      cases cs with
      | nil => simp [lexLe] at hbc
      | cons c cs =>
        simp only [lexLe] at hab hbc ⊢
        by_cases h1 : a.toNat < b.toNat
        · by_cases h2 : b.toNat < c.toNat
          · simp [show a.toNat < c.toNat by omega]
          · by_cases h3 : c.toNat < b.toNat
            · simp [h2, h3] at hbc
            · simp [show a.toNat < c.toNat by omega]
        · by_cases h1' : b.toNat < a.toNat
          · simp [h1, h1'] at hab
          · by_cases h2 : b.toNat < c.toNat
            · simp [show a.toNat < c.toNat by omega]
            · by_cases h3 : c.toNat < b.toNat
              · simp [h2, h3] at hbc
              · have hac : ¬ a.toNat < c.toNat := by omega
                have hca : ¬ c.toNat < a.toNat := by omega
                simp only [h1, h1', if_false] at hab
                simp only [h2, h3, if_false] at hbc
                simp [hac, hca, ih bs cs hab hbc]

instance pyLeTotal (key : Obj → String) : IsTotal Obj (pyLe key) :=
  ⟨fun _ _ => lexLe_total _ _⟩

instance pyLeTrans (key : Obj → String) : IsTrans Obj (pyLe key) :=
  ⟨fun _ _ _ => lexLe_trans _ _ _⟩

instance pyLeRevTotal (key : Obj → String) : IsTotal Obj (pyLeRev key) :=
  ⟨fun _ _ => (lexLe_total _ _).symm⟩

instance pyLeRevTrans (key : Obj → String) : IsTrans Obj (pyLeRev key) :=
  ⟨fun _ _ _ h1 h2 => lexLe_trans _ _ _ h2 h1⟩

theorem filter_orderedInsert {R : Obj → Obj → Prop} [DecidableRel R]
    (key : Obj → String) (hrefl : ∀ x y, key x = key y → R x y) (k : String)
    (a : Obj) :
    ∀ l : List Obj,
      (List.orderedInsert R a l).filter (fun o => decide (key o = k)) =
        if key a = k then a :: l.filter (fun o => decide (key o = k))
        else l.filter (fun o => decide (key o = k)) := by
  intro l
  induction l with
  | nil =>
    by_cases h : key a = k <;> simp [List.orderedInsert, List.filter, h]
  | cons b l ih =>
    by_cases hR : R a b
    · by_cases h : key a = k <;>
        simp [List.orderedInsert, hR, List.filter_cons, h]
    · by_cases hb : key b = k
      · have ha : ¬ key a = k := by
          intro ha
          exact hR (hrefl a b (by rw [ha, hb]))
        simp [List.orderedInsert, hR, List.filter_cons, hb, ih, ha]
      · by_cases h : key a = k <;>
          simp [List.orderedInsert, hR, List.filter_cons, hb, ih, h]

theorem filter_insertionSort {R : Obj → Obj → Prop} [DecidableRel R]
    (key : Obj → String) (hrefl : ∀ x y, key x = key y → R x y) (k : String) :
    ∀ l : List Obj,
      (List.insertionSort R l).filter (fun o => decide (key o = k)) =
        l.filter (fun o => decide (key o = k)) := by
  intro l
  induction l with
  | nil => rfl
  | cons a l ih =>
    simp only [List.insertionSort]
    rw [filter_orderedInsert key hrefl k a]
    by_cases h : key a = k <;> simp [List.filter_cons, h, ih]

/-- C7.  `_sort_for_list` with a `None` sort index returns the list
unchanged; with a designated in-range index it returns a permutation of
the objects that is sorted by the resolved key (ascending, or descending
when the reverse flag is set) and stable: objects with any fixed key keep
their original relative order. -/
theorem C7_sorting (objs : List Obj) (fields : List String)
    (fmts : List (String × Fmt)) (i : Nat) (rev : Bool)
    (hi : i < fields.length) :
    (_sort_for_list objs fields fmts none rev = objs)
    ∧ (_sort_for_list objs fields fmts (some i) rev).Perm objs
    ∧ List.Sorted (pyLe (sortKeyFn fmts (fields.getD i "")))
        (_sort_for_list objs fields fmts (some i) false)
    ∧ List.Sorted (pyLeRev (sortKeyFn fmts (fields.getD i "")))
        (_sort_for_list objs fields fmts (some i) true)
    ∧ (∀ k, (_sort_for_list objs fields fmts (some i) rev).filter
          (fun o => decide (sortKeyFn fmts (fields.getD i "") o = k))
        = objs.filter (fun o => decide (sortKeyFn fmts (fields.getD i "") o = k))) := by
  refine ⟨rfl, ?_, ?_, ?_, ?_⟩
  · cases rev <;> exact List.perm_insertionSort _ _
  · exact List.sorted_insertionSort _ _
  · exact List.sorted_insertionSort _ _
  · intro k
    cases rev
    · exact filter_insertionSort _
        (fun x y h => by simp only [pyLe]; rw [h]; exact lexLe_refl _) k objs
    · exact filter_insertionSort _
        (fun x y h => by simp only [pyLeRev]; rw [h]; exact lexLe_refl _) k objs

/-- Witness for C7 on two concrete objects sorted by their only field. -/
theorem C7_sorting_witness :
    (0 < (["s"] : List String).length)
    ∧ ((_sort_for_list [[("s", "b")], [("s", "a")]] ["s"] [] none false
          = [[("s", "b")], [("s", "a")]])
      ∧ (_sort_for_list [[("s", "b")], [("s", "a")]] ["s"] [] (some 0) false).Perm
          [[("s", "b")], [("s", "a")]]
      ∧ List.Sorted (pyLe (sortKeyFn [] ((["s"] : List String).getD 0 "")))
          (_sort_for_list [[("s", "b")], [("s", "a")]] ["s"] [] (some 0) false)
      ∧ List.Sorted (pyLeRev (sortKeyFn [] ((["s"] : List String).getD 0 "")))
          (_sort_for_list [[("s", "b")], [("s", "a")]] ["s"] [] (some 0) true)
      ∧ (∀ k, (_sort_for_list [[("s", "b")], [("s", "a")]] ["s"] [] (some 0) false).filter
            (fun o => decide (sortKeyFn [] ((["s"] : List String).getD 0 "") o = k))
          = [[("s", "b")], [("s", "a")]].filter
            (fun o => decide (sortKeyFn [] ((["s"] : List String).getD 0 "") o = k)))) :=
  ⟨by decide, C7_sorting [[("s", "b")], [("s", "a")]] ["s"] [] 0 false (by decide)⟩

/-! ## C5: `parse_date` and idempotence -/

theorem isDigit_toNat_bounds (c : Char) (h : c.isDigit = true) :
    48 ≤ c.toNat ∧ c.toNat ≤ 57 := by
  simp only [Char.isDigit, Bool.and_eq_true, decide_eq_true_eq, ge_iff_le] at h
  obtain ⟨h1, h2⟩ := h
  rw [UInt32.le_def, BitVec.le_def] at h1 h2
  exact ⟨h1, h2⟩

/-- A successful `takeDigits` returns a value below `10 ^ k` whose
re-rendering reproduces exactly the consumed digits. -/
theorem takeDigits_sound : ∀ (k : Nat) (l : List Char) (n : Nat) (rest : List Char),
    takeDigits k l = some (n, rest) → n < 10 ^ k ∧ l = padDigits k n ++ rest := by
  intro k
  induction k with
  | zero =>
    intro l n rest h
    simp only [takeDigits, Option.some.injEq, Prod.mk.injEq] at h
    obtain ⟨h1, h2⟩ := h
    subst h1 h2
    simp [padDigits]
  | succ k ih =>
    intro l n rest h
    cases l with
    | nil => simp [takeDigits] at h
    | cons c l' =>
      unfold takeDigits at h
      by_cases hd : c.isDigit
      · rw [if_pos hd] at h
        rcases ht : takeDigits k l' with _ | ⟨n', rest'⟩
        · rw [ht] at h; cases h
        · rw [ht] at h
          simp only [Option.some.injEq, Prod.mk.injEq] at h
          obtain ⟨hn, hrest⟩ := h
          obtain ⟨hb, hrender⟩ := ih l' n' rest' ht
          obtain ⟨h48, h57⟩ := isDigit_toNat_bounds c hd
          subst hn hrest
          have hB : 0 < 10 ^ k := Nat.pow_pos (by norm_num)
          constructor
          · have h2 : 10 ^ (k + 1) = 10 * 10 ^ k := by ring
            have h3 : (c.toNat - 48) * 10 ^ k ≤ 9 * 10 ^ k :=
              Nat.mul_le_mul_right _ (by omega)
            omega
          · have hdiv : ((c.toNat - 48) * 10 ^ k + n') / 10 ^ k = c.toNat - 48 := by
              rw [Nat.add_comm, Nat.mul_comm, Nat.add_mul_div_left _ _ hB,
                Nat.div_eq_of_lt hb, Nat.zero_add]
            have hmod : ((c.toNat - 48) * 10 ^ k + n') % 10 ^ k = n' := by
              rw [Nat.add_comm, Nat.mul_comm, Nat.add_mul_mod_self_left,
                Nat.mod_eq_of_lt hb]
            show c :: l' = padDigits (k + 1) ((c.toNat - 48) * 10 ^ k + n') ++ rest'
            unfold padDigits
            rw [hdiv, hmod]
            have hchar : Char.ofNat (48 + (c.toNat - 48) % 10) = c := by
              have hlt : (c.toNat - 48) % 10 = c.toNat - 48 := Nat.mod_eq_of_lt (by omega)
              rw [hlt, show 48 + (c.toNat - 48) = c.toNat by omega, Char.ofNat_toNat]
            rw [hchar, hrender]
            simp
      · rw [if_neg hd] at h; cases h

theorem takeChar_sound (c : Char) (l rest : List Char)
    (h : takeChar c l = some rest) : l = c :: rest := by
  cases l with
  | nil => simp [takeChar] at h
  | cons d l' =>
    unfold takeChar at h
    dsimp only at h
    by_cases hd : d = c
    · rw [if_pos hd] at h
      injection h with h
      rw [hd, h]
    · rw [if_neg hd] at h; cases h

theorem matchDate_sound (l : List Char) (dm : Ymd × Bool) (rest : List Char)
    (h : matchDate l = some (dm, rest)) :
    l = renderDate (some dm) ++ rest := by
  unfold matchDate at h
  rcases h1 : takeDigits 4 l with _ | ⟨y, l1⟩ <;> rw [h1] at h <;> dsimp only at h
  · cases h
  rcases h2 : takeChar '-' l1 with _ | l2 <;> rw [h2] at h <;> dsimp only at h
  · cases h
  rcases h3 : takeDigits 2 l2 with _ | ⟨mo, l3⟩ <;> rw [h3] at h <;> dsimp only at h
  · cases h
  rcases h4 : takeChar '-' l3 with _ | l4 <;> rw [h4] at h <;> dsimp only at h
  · cases h
  rcases h5 : takeDigits 2 l4 with _ | ⟨d, l5⟩ <;> rw [h5] at h <;> dsimp only at h
  · cases h
  rcases h6 : l5 with _ | ⟨c, l6⟩ <;> rw [h6] at h <;> dsimp only at h
  · cases h
  have e1 := (takeDigits_sound 4 l y l1 h1).2
  have e2 := takeChar_sound _ _ _ h2
  have e3 := (takeDigits_sound 2 l2 mo l3 h3).2
  have e4 := takeChar_sound _ _ _ h4
  have e5 := (takeDigits_sound 2 l4 d l5 h5).2
  by_cases hT : c = 'T'
  · rw [if_pos hT] at h
    simp only [Option.some.injEq, Prod.mk.injEq] at h
    obtain ⟨hdm, hrest⟩ := h
    subst hdm hrest hT
    rw [e1, e2, e3, e4, e5, h6]
    simp [renderDate]
  · rw [if_neg hT] at h
    by_cases hSp : c = ' '
    · rw [if_pos hSp] at h
      simp only [Option.some.injEq, Prod.mk.injEq] at h
      obtain ⟨hdm, hrest⟩ := h
      subst hdm hrest hSp
      rw [e1, e2, e3, e4, e5, h6]
      simp [renderDate]
    · rw [if_neg hSp] at h; cases h

theorem matchHMS_sound (l : List Char) (hms : Nat × Nat × Nat) (rest : List Char)
    (h : matchHMS l = some (hms, rest)) :
    l = padDigits 2 hms.1 ++ ':' :: padDigits 2 hms.2.1
      ++ ':' :: padDigits 2 hms.2.2 ++ rest := by
  unfold matchHMS at h
  rcases h1 : takeDigits 2 l with _ | ⟨hh, l1⟩ <;> rw [h1] at h <;> dsimp only at h
  · cases h
  rcases h2 : takeChar ':' l1 with _ | l2 <;> rw [h2] at h <;> dsimp only at h
  · cases h
  rcases h3 : takeDigits 2 l2 with _ | ⟨mi, l3⟩ <;> rw [h3] at h <;> dsimp only at h
  · cases h
  rcases h4 : takeChar ':' l3 with _ | l4 <;> rw [h4] at h <;> dsimp only at h
  · cases h
  rcases h5 : takeDigits 2 l4 with _ | ⟨sec, l5⟩ <;> rw [h5] at h <;> dsimp only at h
  · cases h
  simp only [Option.some.injEq, Prod.mk.injEq] at h
  obtain ⟨hhms, hrest⟩ := h
  subst hhms hrest
  rw [(takeDigits_sound 2 l hh l1 h1).2, takeChar_sound _ _ _ h2,
    (takeDigits_sound 2 l2 mi l3 h3).2, takeChar_sound _ _ _ h4,
    (takeDigits_sound 2 l4 sec l5 h5).2]
  simp

theorem matchFrac_sound (l : List Char) (fr : Option Nat) (rest : List Char)
    (h : matchFrac l = (fr, rest)) :
    l = renderFrac fr ++ rest := by
  unfold matchFrac at h
  split at h
  · rename_i l1
    rcases h6 : takeDigits 6 l1 with _ | ⟨n, l2⟩ <;> rw [h6] at h <;>
      dsimp only at h <;>
      simp only [Prod.mk.injEq] at h
    · obtain ⟨hfr, hrest⟩ := h
      subst hfr
      subst hrest
      simp [renderFrac]
    · obtain ⟨hfr, hrest⟩ := h
      subst hfr
      subst hrest
      rw [(takeDigits_sound 6 l1 n _ h6).2]
      simp [renderFrac]
  · simp only [Prod.mk.injEq] at h
    obtain ⟨hfr, hrest⟩ := h
    subst hfr hrest
    simp [renderFrac]

theorem matchZTail_sound (l : List Char) (z : Bool) (rest : List Char)
    (h : matchZTail l = (z, rest)) :
    l = (if z then ['Z'] else []) ++ rest := by
  unfold matchZTail at h
  split at h
  · simp only [Prod.mk.injEq] at h
    obtain ⟨hz, hrest⟩ := h
    subst hz hrest
    simp
  · simp only [Prod.mk.injEq] at h
    obtain ⟨hz, hrest⟩ := h
    subst hz hrest
    simp

/-- A successful timestamp match consumed exactly the re-rendering of
the match. -/
theorem matchStamp_sound (l : List Char) (m : TStamp) (rest : List Char)
    (h : matchStamp l = some (m, rest)) :
    l = renderStamp m ++ rest := by
  unfold matchStamp at h
  rcases hd : matchDate l with _ | ⟨dm, l1⟩ <;> rw [hd] at h <;> dsimp only at h
  · rcases hh : matchHMS l with _ | ⟨⟨hh', mi, sec⟩, l2⟩ <;> rw [hh] at h <;> dsimp only at h
    · cases h
    · rcases hfr : matchFrac l2 with ⟨fr, l3⟩
      rcases hz : matchZTail l3 with ⟨z, l4⟩
      rw [hfr] at h
      dsimp only at h
      rw [hz] at h
      dsimp only at h
      simp only [Option.some.injEq, Prod.mk.injEq] at h
      obtain ⟨hm, hrest⟩ := h
      subst hrest
      rw [matchHMS_sound l _ l2 hh, matchFrac_sound l2 fr l3 hfr,
        matchZTail_sound l3 z l4 hz, ← hm]
      simp [renderStamp, renderDate]
  · rcases hh : matchHMS l1 with _ | ⟨⟨hh', mi, sec⟩, l2⟩ <;> rw [hh] at h <;> dsimp only at h
    · cases h
    · rcases hfr : matchFrac l2 with ⟨fr, l3⟩
      rcases hz : matchZTail l3 with ⟨z, l4⟩
      rw [hfr] at h
      dsimp only at h
      rw [hz] at h
      dsimp only at h
      simp only [Option.some.injEq, Prod.mk.injEq] at h
      obtain ⟨hm, hrest⟩ := h
      subst hrest
      rw [matchDate_sound l dm l1 hd, matchHMS_sound l1 _ l2 hh,
        matchFrac_sound l2 fr l3 hfr, matchZTail_sound l3 z l4 hz, ← hm]
      simp [renderStamp]

/-- With a zero local offset, a conversion that never reaches the
mutated-text error path re-renders the match unchanged: the shift
arithmetic is the identity, the year stays at least 1900 so `strftime`
succeeds, and `strftime` reproduces the digits `strptime` consumed. -/
theorem convert_date_zero_clean (m : TStamp) (hc : convertsCleanly m = true) :
    convert_date 0 m = renderStamp m := by
  obtain ⟨md, mh, mmi, msec, mfrac, mz⟩ := m
  unfold convert_date
  unfold convertsCleanly at hc
  rcases md with _ | ⟨p, sepT⟩
  · rfl
  simp only at hc ⊢
  by_cases h1 : mfrac.isSome && mz
  · rw [if_pos h1]
  rw [if_neg h1]
  rw [if_neg h1] at hc
  by_cases h2 : mz && !sepT
  · rw [if_pos h2]
  rw [if_neg h2]
  rw [if_neg h2] at hc
  by_cases h3 : validDT p mh mmi msec
  · rw [if_neg (by simp [h3])]
    rw [if_neg (by simp [h3])] at hc
    have hy : 1900 ≤ p.y := by
      simpa using hc
    have hb : mh ≤ 23 ∧ mmi ≤ 59 := by
      unfold validDT at h3
      simp only [Bool.and_eq_true, decide_eq_true_eq] at h3
      omega
    have hshift : shiftMinutes p mh mmi 0 = some (p, mh, mmi) := by
      unfold shiftMinutes
      dsimp only
      have he1 : ((mh : Int) * 60 + (mmi : Int) + 0) / 1440 = 0 := by omega
      have he2 : ((mh : Int) * 60 + (mmi : Int) + 0) % 1440
          = (mh : Int) * 60 + (mmi : Int) + 0 := by omega
      rw [he1, he2]
      have hadd : addDays p 0 = some p := by
        unfold addDays
        rw [if_pos (le_refl 0)]
        rfl
      rw [hadd]
      have hh' : ((((mh : Int)) * 60 + (mmi : Int) + 0) / 60).toNat = mh := by omega
      have hm' : ((((mh : Int)) * 60 + (mmi : Int) + 0) % 60).toNat = mmi := by omega
      rw [hh', hm']
    rw [hshift]
    dsimp only
    rw [if_neg (by omega)]
  · rw [if_pos (by simp [h3])]

/-- Substituting with a conversion that maps every match satisfying `p`
to its own rendering leaves a text unchanged when every match in the
scan satisfies `p`. -/
theorem subStamps_id_of (g : TStamp → List Char) (p : TStamp → Bool)
    (hg : ∀ m, p m = true → g m = renderStamp m) :
    ∀ (fuel : Nat) (l : List Char), stampsOK p fuel l = true →
      subStamps g fuel l = l := by
  intro fuel
  induction fuel with
  | zero => intro l _; rfl
  | succ n ih =>
    intro l hok
    cases l with
    | nil => rfl
    | cons c cs =>
      unfold subStamps
      unfold stampsOK at hok
      rcases hm : matchStamp (c :: cs) with _ | ⟨m, rest⟩
      · rw [hm] at hok
        dsimp only at hok ⊢
        rw [ih cs hok]
      · rw [hm] at hok
        dsimp only at hok ⊢
        simp only [Bool.and_eq_true] at hok
        rw [hg m hok.1, ih rest hok.2]
        exact (matchStamp_sound _ _ _ hm).symm

/-- With a zero local UTC offset, `parse_date` is the identity on every
string whose scanned matches all convert cleanly (no match reaches the
error path that returns the text with a `+0000` suffix). -/
theorem parse_date_zero_id (s : String)
    (h : stampsOK convertsCleanly s.data.length s.data = true) :
    parse_date 0 s = s := by
  unfold parse_date
  rw [subStamps_id_of _ convertsCleanly convert_date_zero_clean
    s.data.length s.data h]

/-- C5 counterexample.  Two concrete failures of idempotence.  In a
UTC+1 environment (offset 60 minutes) one application of `parse_date`
converts `2024-06-15 12:00:00` to `2024-06-15 13:00:00` and a second
application shifts it again to `2024-06-15 14:00:00`.  And even at UTC
(offset 0), `1899-01-01 00:00:00` gains a `+0000` suffix on every pass:
`strptime` accepts it, the source mutates the matched text before the
Python 2.7 `strftime` call that rejects years below 1900, and the
mutated text is returned. -/
theorem C5_not_idempotent_counterexample :
    (parse_date 60 (parse_date 60 "2024-06-15 12:00:00")
      ≠ parse_date 60 "2024-06-15 12:00:00")
    ∧ (parse_date 0 (parse_date 0 "1899-01-01 00:00:00")
      ≠ parse_date 0 "1899-01-01 00:00:00") := by
  constructor
  · decide
  · decide

/-- C5 (amended).  Applying `parse_date` twice yields the same result as
applying it once exactly when one pass leaves the text unchanged: the
local timezone offset is zero and every convertible timestamp in the
input converts cleanly (in particular its year is at least 1900, so the
Python 2.7 `strftime` restriction never fires and no `+0000` suffix is
appended).  Otherwise idempotence fails: with a nonzero offset each
application shifts convertible timestamps again, and on the error path
each application appends another `+0000` (see the counterexample). -/
theorem C5_idempotent_at_utc (s : String)
    (h : stampsOK convertsCleanly s.data.length s.data = true) :
    parse_date 0 (parse_date 0 s) = parse_date 0 s := by
  rw [parse_date_zero_id s h, parse_date_zero_id s h]

/-- Witness for C5's amended theorem on a concrete convertible
timestamp. -/
theorem C5_idempotent_at_utc_witness :
    (stampsOK convertsCleanly
      ("x 2024-06-15 12:00:00" : String).data.length
      ("x 2024-06-15 12:00:00" : String).data = true)
    ∧ parse_date 0 (parse_date 0 "x 2024-06-15 12:00:00")
      = parse_date 0 "x 2024-06-15 12:00:00" :=
  ⟨by decide, C5_idempotent_at_utc "x 2024-06-15 12:00:00" (by decide)⟩

/-! ## C1: the width fallback in `get_string` -/

/-- Restoring the settings recorded by
`set_no_wrap_on_formatters` recovers the original formatters. -/
theorem set_unset_roundtrip (b : Bool) :
    ∀ fmts : List (String × Fmt),
    unset_no_wrap_on_formatters (set_no_wrap_on_formatters b fmts).1
      (set_no_wrap_on_formatters b fmts).2 = fmts := by
  intro fmts
  induction fmts with
  | nil => rfl
  | cons p rest ih =>
    obtain ⟨f, φ⟩ := p
    obtain ⟨iw, nw, ap, uv, hw⟩ := φ
    simp only [set_no_wrap_on_formatters, unset_no_wrap_on_formatters,
      List.map_cons, List.zipWith_cons_cons] at ih ⊢
    by_cases hiw : iw <;> simp [hiw, ih]

/-- The total rendered height of a list of rows. -/
def rowsHeight (rows : List (List String)) : Int :=
  (rows.map (fun r => (row_height r : Int))).sum

theorem rowsHeight_cons (r : List String) (rows : List (List String)) :
    rowsHeight (r :: rows) = (row_height r : Int) + rowsHeight rows := by
  simp [rowsHeight]

theorem rowsHeight_nonneg : ∀ rows : List (List String), 0 ≤ rowsHeight rows := by
  intro rows
  induction rows with
  | nil => simp [rowsHeight]
  | cons r rest ih =>
    simp only [rowsHeight, List.map_cons, List.sum_cons] at ih ⊢
    have : (0 : Int) ≤ (row_height r : Int) := Int.ofNat_nonneg _
    omega

/-- Replaying objects through `add_row` with paging on succeeds without
any page break as long as the total height of the replayed rows fits the
line budget; every row is appended in order and the budget decreases by
the total height. -/
theorem replay_paging_fit (env : Env) (fuel : Nat) :
    ∀ (objs : List Obj) (s : PT) (t : Table) (ins : List String),
    s.quit = false → s.pt = some t → s.paging = true →
    rowsHeight (objs.map (fun o => (_build_row_from_object env s.fields s.formatters o).1))
      ≤ s.terminal_lines_left →
    replay (add_row env (fuel + 1)) s objs ins =
      some ({ s with
              pt := some ⟨t.labels, t.rows
                ++ objs.map (fun o => (_build_row_from_object env s.fields s.formatters o).1)⟩
              objs_in_pt := s.objs_in_pt
                ++ objs.map (fun o => (_build_row_from_object env s.fields s.formatters o).2)
              terminal_lines_left := s.terminal_lines_left
                - rowsHeight (objs.map
                    (fun o => (_build_row_from_object env s.fields s.formatters o).1))
              paged_rows_added := s.paged_rows_added + objs.length },
            ins, []) := by
  intro objs
  induction objs with
  | nil =>
    intro s t ins hq hpt hpag hfits
    obtain ⟨ol, ul, fl, fm, hh, tw, th, tl, pg, pr, pt, qt⟩ := s
    obtain ⟨lab, rows⟩ := t
    simp only [PT.mk.injEq] at hpt ⊢
    simp [replay, hpt, rowsHeight]
  | cons o os ih =>
    intro s t ins hq hpt hpag hfits
    have hrest0 : 0 ≤ rowsHeight (os.map
        (fun o => (_build_row_from_object env s.fields s.formatters o).1)) :=
      rowsHeight_nonneg _
    have hhead : rowsHeight ((o :: os).map
        (fun o => (_build_row_from_object env s.fields s.formatters o).1)) =
        (row_height (_build_row_from_object env s.fields s.formatters o).1 : Int)
          + rowsHeight (os.map
              (fun o => (_build_row_from_object env s.fields s.formatters o).1)) := by
      simp [rowsHeight]
    rw [hhead] at hfits
    unfold replay
    rw [add_row_fit_eq env fuel s t o ins hq hpt hpag (Or.inl (by
      simp only [builtRow]
      omega))]
    dsimp only
    rw [ih { s with
             pt := some ⟨t.labels, t.rows ++ [(builtRow env s o).1]⟩
             objs_in_pt := s.objs_in_pt ++ [(builtRow env s o).2]
             terminal_lines_left :=
               s.terminal_lines_left - (row_height (builtRow env s o).1 : Int)
             paged_rows_added := s.paged_rows_added + 1 }
          ⟨t.labels, t.rows ++ [(builtRow env s o).1]⟩ ins
          (by simp [hq]) (by simp) (by simp [hpag])
          (by simp [builtRow]; omega)]
    simp only [builtRow]
    simp [rowsHeight_cons]
    omega

/-- C1.  When the global no-wrap override is off and the measured width
of the rendered table exceeds the terminal width, `get_string` forces the
wrapping-capable formatters into no-wrap mode, rebuilds the table,
replays every previously accumulated object through the row builder (so
the new rows are the no-wrap renderings, in the original order), renders
once more and returns that render — and the formatters of the resulting
state equal the original ones (settings restored).  No hypothesis
constrains the width of the second render: even if the unwrapped
rendering still exceeds the terminal width it is returned as is, with no
further rebuild or width check.  The first conjunct covers a non-paging
state; the second covers a paging state whose replayed rows fit the fresh
page (a taller replay would re-prompt mid-flush, which the claim does not
describe). -/
theorem C1_width_fallback (env : Env) (fuel : Nat) (s : PT) (t : Table)
    (ins : List String)
    (hq : s.quit = false) (hpt : s.pt = some t)
    (hnw : env.nowrap_global = false)
    (hwide : ¬ env.get_width (env.render t.labels t.rows) ≤ s.terminal_width) :
    (s.paging = false →
      get_string env (fuel + 2) s ins =
        some ({ s with
                objs_in_pt := s.objs_in_pt.map (fun o =>
                  (_build_row_from_object env s.fields
                    (set_no_wrap_on_formatters true s.formatters).2 o).2)
                pt := some ⟨wrappedLabels env (set_no_wrap_on_formatters true s.formatters).2
                              s.fields s.unwrapped_field_labels,
                  s.objs_in_pt.map (fun o =>
                    (_build_row_from_object env s.fields
                      (set_no_wrap_on_formatters true s.formatters).2 o).1)⟩
                header_height :=
                  2 + 1 + 1 + (row_height (wrappedLabels env
                    (set_no_wrap_on_formatters true s.formatters).2
                    s.fields s.unwrapped_field_labels) : Int)
                terminal_lines_left :=
                  s.terminal_height
                    - (2 + 1 + 1 + (row_height (wrappedLabels env
                        (set_no_wrap_on_formatters true s.formatters).2
                        s.fields s.unwrapped_field_labels) : Int)) },
              ins, [],
              env.render
                (wrappedLabels env (set_no_wrap_on_formatters true s.formatters).2
                  s.fields s.unwrapped_field_labels)
                (s.objs_in_pt.map (fun o =>
                  (_build_row_from_object env s.fields
                    (set_no_wrap_on_formatters true s.formatters).2 o).1))))
    ∧ (s.paging = true →
      rowsHeight (s.objs_in_pt.map (fun o =>
          (_build_row_from_object env s.fields
            (set_no_wrap_on_formatters true s.formatters).2 o).1))
        ≤ s.terminal_height
          - (2 + 1 + 1 + (row_height (wrappedLabels env
              (set_no_wrap_on_formatters true s.formatters).2
              s.fields s.unwrapped_field_labels) : Int)) →
      get_string env (fuel + 2) s ins =
        some ({ s with
                objs_in_pt := s.objs_in_pt.map (fun o =>
                  (_build_row_from_object env s.fields
                    (set_no_wrap_on_formatters true s.formatters).2 o).2)
                pt := some ⟨wrappedLabels env (set_no_wrap_on_formatters true s.formatters).2
                              s.fields s.unwrapped_field_labels,
                  s.objs_in_pt.map (fun o =>
                    (_build_row_from_object env s.fields
                      (set_no_wrap_on_formatters true s.formatters).2 o).1)⟩
                header_height :=
                  2 + 1 + 1 + (row_height (wrappedLabels env
                    (set_no_wrap_on_formatters true s.formatters).2
                    s.fields s.unwrapped_field_labels) : Int)
                terminal_lines_left :=
                  s.terminal_height
                    - (2 + 1 + 1 + (row_height (wrappedLabels env
                        (set_no_wrap_on_formatters true s.formatters).2
                        s.fields s.unwrapped_field_labels) : Int))
                    - rowsHeight (s.objs_in_pt.map (fun o =>
                        (_build_row_from_object env s.fields
                          (set_no_wrap_on_formatters true s.formatters).2 o).1))
                paged_rows_added := s.paged_rows_added + s.objs_in_pt.length },
              ins, [],
              env.render
                (wrappedLabels env (set_no_wrap_on_formatters true s.formatters).2
                  s.fields s.unwrapped_field_labels)
                (s.objs_in_pt.map (fun o =>
                  (_build_row_from_object env s.fields
                    (set_no_wrap_on_formatters true s.formatters).2 o).1)))) := by
  constructor
  · intro hpag
    rw [show fuel + 2 = fuel + 1 + 1 from rfl, get_string_succ]
    unfold getStringBody
    simp only [hpt, Option.isNone_some, Bool.false_eq_true, if_false]
    simp only [hnw, Bool.false_eq_true, if_false]
    rw [if_neg hwide]
    rw [pager_addRow]
    unfold build_pretty_table
    rw [replay_nopaging env fuel s.objs_in_pt _
      ⟨wrappedLabels env (set_no_wrap_on_formatters true s.formatters).2
          s.fields s.unwrapped_field_labels, []⟩
      ins (by simp [hq]) (by simp [wrappedLabels]) (by simp [hpag])]
    simp [set_unset_roundtrip]
  · intro hpag hfits
    rw [show fuel + 2 = fuel + 1 + 1 from rfl, get_string_succ]
    unfold getStringBody
    simp only [hpt, Option.isNone_some, Bool.false_eq_true, if_false]
    simp only [hnw, Bool.false_eq_true, if_false]
    rw [if_neg hwide]
    rw [pager_addRow]
    unfold build_pretty_table
    rw [replay_paging_fit env fuel s.objs_in_pt _
      ⟨wrappedLabels env (set_no_wrap_on_formatters true s.formatters).2
          s.fields s.unwrapped_field_labels, []⟩
      ins (by simp [hq]) (by simp [wrappedLabels]) (by simp [hpag])
      (by simp only []; simpa using hfits)]
    simp [set_unset_roundtrip]

/-- Witness for C1: a render reported wider than the terminal triggers
the fallback on a 1-object non-paging state. -/
theorem C1_width_fallback_witness :
    (({ objs_in_pt := [[("a", "v")]], unwrapped_field_labels := ["A"],
        fields := ["a"], formatters := [], header_height := 5,
        terminal_width := 10, terminal_height := 24, terminal_lines_left := 19,
        paging := false, paged_rows_added := 0,
        pt := some ⟨["A"], [["v"]]⟩, quit := false } : PT).quit = false)
    ∧ (¬ (100 : Int) ≤ 10)
    ∧ (({ objs_in_pt := [[("a", "v")]], unwrapped_field_labels := ["A"],
          fields := ["a"], formatters := [], header_height := 5,
          terminal_width := 10, terminal_height := 24, terminal_lines_left := 19,
          paging := false, paged_rows_added := 0,
          pt := some ⟨["A"], [["v"]]⟩, quit := false } : PT).paging = false →
      get_string
        { terminal_width := 10, terminal_height := 24, nowrap_global := false,
          get_width := fun _ => 100, render := fun _ rows => toString rows.length,
          fill := fun _ s => s, tzoff := 0 }
        2
        { objs_in_pt := [[("a", "v")]], unwrapped_field_labels := ["A"],
          fields := ["a"], formatters := [], header_height := 5,
          terminal_width := 10, terminal_height := 24, terminal_lines_left := 19,
          paging := false, paged_rows_added := 0,
          pt := some ⟨["A"], [["v"]]⟩, quit := false }
        [] =
        some ({ objs_in_pt := [[("a", "v")]], unwrapped_field_labels := ["A"],
                fields := ["a"], formatters := [], header_height := 5,
                terminal_width := 10, terminal_height := 24,
                terminal_lines_left := 24 - 5, paging := false,
                paged_rows_added := 0, pt := some ⟨["A"], [["v"]]⟩,
                quit := false },
              [], [], "1")) :=
  ⟨rfl, by decide,
   (C1_width_fallback
     { terminal_width := 10, terminal_height := 24, nowrap_global := false,
       get_width := fun _ => 100, render := fun _ rows => toString rows.length,
       fill := fun _ s => s, tzoff := 0 }
     0
     { objs_in_pt := [[("a", "v")]], unwrapped_field_labels := ["A"],
       fields := ["a"], formatters := [], header_height := 5,
       terminal_width := 10, terminal_height := 24, terminal_lines_left := 19,
       paging := false, paged_rows_added := 0,
       pt := some ⟨["A"], [["v"]]⟩, quit := false }
     ⟨["A"], [["v"]]⟩ []
     rfl rfl rfl (by decide)).1⟩

/-! ## C10: header height after a rebuild -/

/-- The header height as the claim states it: 4 fixed lines (two top
border lines, one bottom border line, one prompt line) plus the height of
the word-wrapped header labels row. -/
def headerHeightSpec (env : Env) (s : PT) : Int :=
  4 + (row_height (wrappedLabels env s.formatters s.fields s.unwrapped_field_labels) : Int)

/-- C10.  Every table (re)build sets `header_height` to 4 plus the height
of the wrapped header labels row and resets the line budget to terminal
height minus that header height; no other operation (a committing
`add_row` in either paging mode, or a `get_string` that does not fall
back) modifies `header_height`. -/
theorem C10_header_height (env : Env) (fuel : Nat) (s : PT) (t : Table) (o : Obj)
    (ins : List String) (hq : s.quit = false) (hpt : s.pt = some t) :
    ((build_pretty_table env s).header_height = headerHeightSpec env s
      ∧ (build_pretty_table env s).terminal_lines_left
          = s.terminal_height - headerHeightSpec env s)
    ∧ (s.paging = true →
        (0 ≤ s.terminal_lines_left - (row_height (builtRow env s o).1 : Int)
          ∨ s.paged_rows_added = 0) →
        ∃ s' outs r, add_row env (fuel + 1) s o ins = some (s', ins, outs, r)
          ∧ s'.header_height = s.header_height)
    ∧ (s.paging = false →
        ∃ s' outs r, add_row env (fuel + 1) s o ins = some (s', ins, outs, r)
          ∧ s'.header_height = s.header_height)
    ∧ ((env.nowrap_global = true
        ∨ env.get_width (env.render t.labels t.rows) ≤ s.terminal_width) →
        ∃ s' str, get_string env (fuel + 1) s ins = some (s', ins, [], str)
          ∧ s'.header_height = s.header_height) := by
  refine ⟨⟨?_, ?_⟩, ?_, ?_, ?_⟩
  · simp only [build_pretty_table, headerHeightSpec]
    omega
  · simp only [build_pretty_table, headerHeightSpec]
    omega
  · intro hpag hfit
    exact ⟨_, _, _, add_row_fit_eq env fuel s t o ins hq hpt hpag hfit, rfl⟩
  · intro hpag
    exact ⟨_, _, _, add_row_nopaging_eq env fuel s t o ins hq hpt hpag, rfl⟩
  · intro hok
    exact ⟨_, _, get_string_nofb env fuel s t ins hpt hok, rfl⟩

/-- Witness for C10 at a concrete state. -/
theorem C10_header_height_witness :
    ((({ objs_in_pt := [], unwrapped_field_labels := ["A"], fields := ["a"],
         formatters := [], header_height := 5, terminal_width := 80,
         terminal_height := 24, terminal_lines_left := 19, paging := false,
         paged_rows_added := 0, pt := some ⟨["A"], []⟩,
         quit := false } : PT).quit = false)
      ∧ (True : Prop))
    ∧ (∃ s' : PT, s'.header_height = 5) := by
  refine ⟨⟨rfl, trivial⟩, ?_⟩
  have h := C10_header_height
    { terminal_width := 80, terminal_height := 24, nowrap_global := true,
      get_width := fun _ => 0, render := fun _ _ => "TBL", fill := fun _ s => s,
      tzoff := 0 }
    0
    { objs_in_pt := [], unwrapped_field_labels := ["A"], fields := ["a"],
      formatters := [], header_height := 5, terminal_width := 80,
      terminal_height := 24, terminal_lines_left := 19, paging := false,
      paged_rows_added := 0, pt := some ⟨["A"], []⟩, quit := false }
    ⟨["A"], []⟩ [] []
    rfl rfl
  obtain ⟨s', _, _, _, hh⟩ := h.2.2.1 rfl
  exact ⟨s', hh⟩

/-- C9.  While the global no-wrap override is active, `get_string`
returns the rendered table text immediately: no hypothesis constrains
`env.get_width`, so the conclusion holds even when the rendered text is
wider than the terminal, and no rebuild or replay takes place (the
resulting state differs from the input state only in the cleared
accumulated-objects list). -/
theorem C9_nowrap_override_skips_width_check (env : Env) (fuel : Nat) (s : PT)
    (t : Table) (ins : List String) (hpt : s.pt = some t)
    (hnw : env.nowrap_global = true) :
    get_string env (fuel + 1) s ins =
      some ({ s with objs_in_pt := [] }, ins, [], env.render t.labels t.rows) := by
  rw [get_string_succ]
  unfold getStringBody
  simp [hpt, hnw]

/-- Witness for C9 at a concrete state. -/
theorem C9_nowrap_override_skips_width_check_witness :
    get_string
      { terminal_width := 10, terminal_height := 10, nowrap_global := true,
        get_width := fun _ => 99, render := fun _ _ => "T", fill := fun _ s => s,
        tzoff := 0 }
      1
      { objs_in_pt := [], unwrapped_field_labels := [], fields := [],
        formatters := [], header_height := 0, terminal_width := 10,
        terminal_height := 10, terminal_lines_left := 10, paging := true,
        paged_rows_added := 0, pt := some ⟨[], []⟩, quit := false }
      [] =
      some ({ objs_in_pt := [], unwrapped_field_labels := [], fields := [],
              formatters := [], header_height := 0, terminal_width := 10,
              terminal_height := 10, terminal_lines_left := 10, paging := true,
              paged_rows_added := 0, pt := some ⟨[], []⟩, quit := false },
            [], [], "T") := by
  exact C9_nowrap_override_skips_width_check _ 0 _ ⟨[], []⟩ [] rfl rfl

end FmUtils
